import Mathlib

/-!
Shallow embedding of the pf-blotter FIX gateway core (C++ sources under
`pf-blotter_backend/`), together with proofs settling the specification
claims about it.

Modelling conventions:
* C++ `double` is modelled as the exact rational type `ℚ`; `int` and
  `int64_t` as `Int`; `std::string` as `String`; `char` as `Char`.
* `std::unordered_map` is modelled as an association list; iteration order
  of the map is modelled as the list order (the C++ iteration order is
  unspecified, and no verified property depends on it).
* The seeded `std::mt19937` engine together with its distributions is
  modelled as a deterministic stream `entropy : ℕ → ℚ` of draws; each
  distribution call consumes exactly one element of the stream, in program
  order.  The C++ engine is a deterministic function of the seed, so equal
  seeds give equal streams.
* Fallible operations (JSON access that can throw) return `Except`.
-/

namespace QfBlotter

/-! ### Generic association-list helpers (model of `std::unordered_map`) -/

def alistFind {α : Type} (m : List (String × α)) (k : String) : Option α :=
  match m with
  | [] => none
  | (k2, v) :: rest => if k2 = k then some v else alistFind rest k

def alistReplace {α : Type} (m : List (String × α)) (k : String) (v : α) :
    List (String × α) :=
  match m with
  | [] => []
  | (k2, v2) :: rest =>
      if k2 = k then (k2, v) :: rest else (k2, v2) :: alistReplace rest k v

/-- `state_[symbol] = v` on an `unordered_map`: overwrite if present, append
otherwise. -/
def alistUpsert {α : Type} (m : List (String × α)) (k : String) (v : α) :
    List (String × α) :=
  match alistFind m k with
  | none => m ++ [(k, v)]
  | some _ => alistReplace m k v

/-! ### Order records (OrderStore.hpp, `struct OrderRecord`) -/

structure OrderRecord where
  clOrdId : String := ""
  orderId : String := ""
  symbol : String := ""
  side : Char := '0'
  price : ℚ := 0
  quantity : Int := 0
  leavesQty : Int := 0
  cumQty : Int := 0
  avgPx : ℚ := 0
  status : String := ""
  rejectReason : String := ""
  transactTime : String := ""
  submitTimeUs : Int := 0
  ackTimeUs : Int := 0
  fillTimeUs : Int := 0
  latencyUs : Int := 0
deriving Repr, DecidableEq

/-- Aggregate statistics (OrderStore.hpp, `struct OrderStats`). -/
structure OrderStats where
  totalOrders : Int := 0
  newOrders : Int := 0
  partialOrders : Int := 0
  filledOrders : Int := 0
  rejectedOrders : Int := 0
  canceledOrders : Int := 0
  avgLatencyUs : Int := 0
  minLatencyUs : Int := 0
  maxLatencyUs : Int := 0
  p99LatencyUs : Int := 0
  totalNotional : ℚ := 0
  filledNotional : ℚ := 0
deriving Repr, DecidableEq

/-- The order store: keyed map plus the insertion-order index
(OrderStore.hpp `orders_`, `orderIndex_`). -/
structure OrderStore where
  orders : List (String × OrderRecord) := []
  orderIndex : List String := []
deriving Repr, DecidableEq

/-- OrderStore.cpp lines 7-16: insert if absent (appending to the index),
else overwrite in place. -/
def OrderStore.upsert (st : OrderStore) (r : OrderRecord) : OrderStore :=
  match alistFind st.orders r.clOrdId with
  | none =>
      { orders := st.orders ++ [(r.clOrdId, r)],
        orderIndex := st.orderIndex ++ [r.clOrdId] }
  | some _ => { st with orders := alistReplace st.orders r.clOrdId r }

/-- OrderStore.cpp lines 18-29: no-op on an absent key, else set the four
fields. -/
def OrderStore.updateStatus (st : OrderStore) (clOrdId status : String)
    (leavesQty cumQty : Int) (avgPx : ℚ) : OrderStore :=
  match alistFind st.orders clOrdId with
  | none => st
  | some r =>
      { st with
        orders := alistReplace st.orders clOrdId
          { r with status := status, leavesQty := leavesQty,
                   cumQty := cumQty, avgPx := avgPx } }

/-- OrderStore.cpp lines 31-39. -/
def OrderStore.reject (st : OrderStore) (clOrdId reason : String) : OrderStore :=
  match alistFind st.orders clOrdId with
  | none => st
  | some r =>
      { st with
        orders := alistReplace st.orders clOrdId
          { r with status := "REJECTED", rejectReason := reason } }

/-- OrderStore.cpp lines 41-48. -/
def OrderStore.get (st : OrderStore) (clOrdId : String) : Option OrderRecord :=
  alistFind st.orders clOrdId

/-- OrderStore.cpp lines 50-53. -/
def OrderStore.existsCl (st : OrderStore) (clOrdId : String) : Bool :=
  (st.get clOrdId).isSome

/-- OrderStore.cpp lines 55-64: all records whose status is NEW or PARTIAL. -/
def OrderStore.getOpenOrders (st : OrderStore) : List OrderRecord :=
  (st.orders.map Prod.snd).filter
    (fun o => o.status = "NEW" || o.status = "PARTIAL")

/-- Modelled from the spec: `OrderStore::remove` is called by the amend
handler (gateway_main.cpp line 395) but its definition is not part of the
sources; spec §4.2 says the old key is removed and §8 names `remove(c)`.
Modelled as removing the entry and its index position. -/
def OrderStore.remove (st : OrderStore) (clOrdId : String) : OrderStore :=
  { orders := st.orders.filter (fun kv => kv.1 ≠ clOrdId),
    orderIndex := st.orderIndex.filter (fun k => k ≠ clOrdId) }

/-! ### Statistics (OrderStore.cpp `getStats`, lines 66-111) -/

/-- Ascending insertion sort, modelling `std::sort(latencies)` ascending. -/
def sortedInsert (x : Int) : List Int → List Int
  | [] => [x]
  | y :: ys => if x ≤ y then x :: y :: ys else y :: sortedInsert x ys

def sortAsc : List Int → List Int
  | [] => []
  | x :: xs => sortedInsert x (sortAsc xs)

def countStatus (recs : List OrderRecord) (s : String) : Int :=
  ((recs.filter (fun o => o.status = s)).length : Int)

/-- OrderStore.cpp lines 66-111.  The P99 index `size_t(size * 0.99)` is
modelled as the exact `n * 99 / 100` (the double product rounds to the same
floor at the sizes considered here). -/
def OrderStore.getStats (st : OrderStore) : OrderStats :=
  let recs := st.orders.map Prod.snd
  let lat := sortAsc ((recs.filter (fun o => o.latencyUs > 0)).map
    (fun o => o.latencyUs))
  let base : OrderStats :=
    { totalOrders := (recs.length : Int)
      newOrders := countStatus recs "NEW"
      partialOrders := countStatus recs "PARTIAL"
      filledOrders := countStatus recs "FILLED"
      rejectedOrders := countStatus recs "REJECTED"
      canceledOrders := countStatus recs "CANCELED"
      totalNotional := (recs.map (fun o => o.price * (o.quantity : ℚ))).sum
      filledNotional := (recs.filterMap (fun o =>
        if o.status = "FILLED" || o.status = "PARTIAL" then
          some (o.avgPx * (o.cumQty : ℚ))
        else none)).sum }
  if lat.isEmpty then base
  else
    let n := lat.length
    let p99Idx := n * 99 / 100
    let p99Idx := if p99Idx ≥ n then n - 1 else p99Idx
    { base with
      avgLatencyUs := lat.sum / (n : Int)
      minLatencyUs := lat.headD 0
      maxLatencyUs := lat.getLastD 0
      p99LatencyUs := lat.getD p99Idx 0 }

/-! ### JSON model and persistence (Persistence.cpp, OrderStore.cpp `snapshotJson`) -/

inductive Json where
  | null : Json
  | str : String → Json
  | int : Int → Json
  | rat : ℚ → Json
  | arr : List Json → Json
  | obj : List (String × Json) → Json

/-- OrderStore.cpp lines 113-139: the snapshot is a top-level JSON ARRAY of
per-order objects (the repository's own `JsonSnapshot` test asserts
`json.is_array()`). -/
def OrderStore.snapshotJson (st : OrderStore) : Json :=
  .arr (st.orderIndex.filterMap (fun id =>
    match alistFind st.orders id with
    | none => none
    | some o => some (.obj
        [("clOrdId", .str o.clOrdId),
         ("orderId", .str o.orderId),
         ("symbol", .str o.symbol),
         ("side", .str (String.mk [o.side])),
         ("price", .rat o.price),
         ("quantity", .int o.quantity),
         ("leavesQty", .int o.leavesQty),
         ("cumQty", .int o.cumQty),
         ("avgPx", .rat o.avgPx),
         ("status", .str o.status),
         ("rejectReason", .str o.rejectReason),
         ("transactTime", .str o.transactTime),
         ("latencyUs", .int o.latencyUs)])))

/-- `nlohmann::json::operator[](const char*)` on a non-const value: reads the
key of an object (null if absent), converts `null` to an object, and THROWS
`type_error.305` on any other type — in particular on an array. -/
def jsonIndex (j : Json) (k : String) : Except String Json :=
  match j with
  | .obj kvs => .ok ((alistFind kvs k).getD .null)
  | .null => .ok .null
  | _ => .error "type_error.305 cannot use operator[] with a string argument"

/-- Persistence.cpp lines 131-163, the body of the `try` block of `doSave`:
build `{version, savedAt, orders: snapshot["orders"]}`.  `snapshot` is the
array produced by `snapshotJson`, so the string index throws. -/
def buildSaveDoc (st : OrderStore) (savedAt : Int) : Except String Json := do
  let snapshot := st.snapshotJson
  let orders ← jsonIndex snapshot "orders"
  pure (.obj [("version", .int 1), ("savedAt", .int savedAt), ("orders", orders)])

/-- Persistence.cpp `doSave`: on success the document is written to
`<path>.tmp` and atomically renamed onto the file; any exception is caught,
logged and swallowed, leaving the file untouched.  The canonical file is
modelled as `Option Json` (none = file absent). -/
def doSave (st : OrderStore) (savedAt : Int) (file : Option Json) : Option Json :=
  match buildSaveDoc st savedAt with
  | .ok doc => some doc
  | .error _ => file

def jsonObjGet (j : Json) (k : String) : Option Json :=
  match j with
  | .obj kvs => alistFind kvs k
  | _ => none

def jvalStr (j : Json) (k d : String) : String :=
  match jsonObjGet j k with
  | some (.str s) => s
  | _ => d

def jvalInt (j : Json) (k : String) (d : Int) : Int :=
  match jsonObjGet j k with
  | some (.int n) => n
  | _ => d

def jvalRat (j : Json) (k : String) (d : ℚ) : ℚ :=
  match jsonObjGet j k with
  | some (.rat q) => q
  | some (.int n) => (n : ℚ)
  | _ => d

/-- Persistence.cpp lines 64-87: one order entry read with
`orderJson.value(key, default)`; `side` is the first character of the stored
string (default string `"1"`). -/
def loadRecord (j : Json) : OrderRecord :=
  { clOrdId := jvalStr j "clOrdId" ""
    orderId := jvalStr j "orderId" ""
    symbol := jvalStr j "symbol" ""
    side := ((jvalStr j "side" "1").toList.headD (Char.ofNat 0))
    price := jvalRat j "price" 0
    quantity := jvalInt j "quantity" 0
    leavesQty := jvalInt j "leavesQty" 0
    cumQty := jvalInt j "cumQty" 0
    avgPx := jvalRat j "avgPx" 0
    status := jvalStr j "status" "NEW"
    rejectReason := jvalStr j "rejectReason" ""
    transactTime := jvalStr j "transactTime" ""
    submitTimeUs := jvalInt j "submitTimeUs" 0
    ackTimeUs := jvalInt j "ackTimeUs" 0
    fillTimeUs := jvalInt j "fillTimeUs" 0
    latencyUs := jvalInt j "latencyUs" 0 }

/-- Persistence.cpp lines 43-96, `PersistenceManager::load`: absent file or a
document without an `orders` array loads nothing; records with an empty
`clOrdId` are skipped; each surviving record is handed to the loader. -/
def loadOrders (file : Option Json) : List OrderRecord :=
  match file with
  | none => []
  | some j =>
      match jsonObjGet j "orders" with
      | some (.arr l) => (l.map loadRecord).filter (fun r => r.clOrdId ≠ "")
      | _ => []

/-- gateway_main.cpp lines 186-188: the loader callback upserts each record
into the (fresh) store. -/
def loadIntoStore (file : Option Json) : OrderStore :=
  (loadOrders file).foldl OrderStore.upsert {}

/-! ### Market simulator (MarketSim.cpp / MarketSim.hpp) -/

/-- Construction parameters of `MarketSim` together with the seeded RNG
modelled as a deterministic draw stream (see the header comment). -/
structure SimCfg where
  entropy : ℕ → ℚ
  startPrice : ℚ := 100
  step : ℚ := 1/20

/-- MarketSim.hpp: the per-symbol `last` prices plus the RNG position. -/
structure SimState where
  lastPrices : List (String × ℚ) := []
  rngIdx : ℕ := 0
deriving Repr, DecidableEq

/-- One distribution call on the shared engine: consume the next element of
the seeded stream. -/
def simDraw (cfg : SimCfg) (s : SimState) : ℚ × SimState :=
  (cfg.entropy s.rngIdx, { s with rngIdx := s.rngIdx + 1 })

/-- MarketSim.cpp lines 11-24, the `TICKER_PRICES` table. -/
def TICKER_PRICES : List (String × ℚ) :=
  [("AAPL", 185), ("GOOGL", 175), ("MSFT", 420),
   ("AMZN", 185), ("NVDA", 875), ("META", 500),
   ("TSLA", 175), ("AMD", 155), ("INTC", 42),
   ("NFLX", 625), ("DIS", 115), ("PYPL", 62),
   ("V", 280), ("MA", 460), ("JPM", 195),
   ("BAC", 35), ("WFC", 55), ("GS", 475),
   ("C", 60), ("MS", 95), ("IBM", 185),
   ("ORCL", 125), ("CRM", 275), ("ADBE", 575),
   ("UBER", 78), ("LYFT", 15), ("ABNB", 145),
   ("COIN", 225), ("SQ", 75), ("SHOP", 78),
   ("SNAP", 11), ("TWTR", 45), ("PINS", 32),
   ("SPY", 520), ("QQQ", 440), ("IWM", 210)]

/-- MarketSim.cpp lines 26-29. -/
def getRealisticPrice (symbol : String) (defaultPrice : ℚ) : ℚ :=
  (alistFind TICKER_PRICES symbol).getD defaultPrice

/-- MarketSim.cpp lines 35-45, `MarketSim::mark`. -/
def simMark (cfg : SimCfg) (s : SimState) (symbol : String) : ℚ × SimState :=
  match alistFind s.lastPrices symbol with
  | none =>
      let price := getRealisticPrice symbol cfg.startPrice
      (price, { s with lastPrices := alistUpsert s.lastPrices symbol price })
  | some p => (p, s)

/-- MarketSim.cpp lines 53-65, `nextTickUnsafe`: `state_[symbol]` default
constructs `last = 0`, which is then replaced by the realistic seed price;
`last += eps * step * (last/100)`, floored at 0.01. -/
def nextTickUnsafe (cfg : SimCfg) (s : SimState) (symbol : String) :
    ℚ × SimState :=
  let cur0 := (alistFind s.lastPrices symbol).getD 0
  let cur := if cur0 = 0 then getRealisticPrice symbol cfg.startPrice else cur0
  let (eps, s1) := simDraw cfg s
  let next0 := cur + eps * cfg.step * (cur / 100)
  let next := if next0 < 1/100 then 1/100 else next0
  (next, { s1 with lastPrices := alistUpsert s1.lastPrices symbol next })

/-- MarketSim.cpp lines 47-50 (`nextTick` just takes the lock). -/
def simNextTick (cfg : SimCfg) (s : SimState) (symbol : String) : ℚ × SimState :=
  nextTickUnsafe cfg s symbol

/-- MarketSim.cpp lines 67-77, `shouldFill`: the tick always advances, side
`'1'` is Buy, `'2'` is Sell, anything else is false. -/
def simShouldFill (cfg : SimCfg) (s : SimState) (symbol : String) (side : Char)
    (limitPx : ℚ) : Bool × SimState :=
  let (px, s1) := nextTickUnsafe cfg s symbol
  if side = '1' then (decide (px ≤ limitPx), s1)
  else if side = '2' then (decide (limitPx ≤ px), s1)
  else (false, s1)

structure FillResult where
  fillQty : Int := 0
  fillPx : ℚ := 0
  complete : Bool := false
deriving Repr, DecidableEq

/-- `static_cast<int>` on a C++ double: truncation toward zero. -/
def truncQ (q : ℚ) : Int := if 0 ≤ q then ⌊q⌋ else ⌈q⌉

/-- MarketSim.cpp lines 79-116, `attemptFill`: shortcut on `leavesQty ≤ 0`
BEFORE any tick or draw; otherwise advance the tick, bail out (with the
advanced state) if the price is not favorable, fill fully when
`leavesQty ≤ 100`, else draw a ratio and fill `max(1, int(leaves*ratio))`;
cap at `leavesQty` and recompute `complete` at the end. -/
def simAttemptFill (cfg : SimCfg) (s : SimState) (symbol : String) (side : Char)
    (limitPx : ℚ) (leavesQty : Int) : FillResult × SimState :=
  if leavesQty ≤ 0 then ({}, s)
  else
    let (px, s1) := nextTickUnsafe cfg s symbol
    let canFill :=
      if side = '1' then decide (px ≤ limitPx)
      else if side = '2' then decide (limitPx ≤ px)
      else false
    if canFill = false then ({}, s1)
    else
      let (q0, s2) :=
        if leavesQty ≤ 100 then (leavesQty, s1)
        else
          let (frac, s2) := simDraw cfg s1
          (max 1 (truncQ ((leavesQty : ℚ) * frac)), s2)
      let fillQty := min q0 leavesQty
      ({ fillQty := fillQty, fillPx := px,
         complete := decide (leavesQty ≤ fillQty) }, s2)

structure BookLevel where
  price : ℚ := 0
  quantity : Int := 0
deriving Repr, DecidableEq

structure OrderBook where
  symbol : String := ""
  bids : List BookLevel := []
  asks : List BookLevel := []
  lastPrice : ℚ := 0
  spread : ℚ := 0
deriving Repr, DecidableEq

/-- `std::round` (half away from zero) of a C++ double. -/
def rround (q : ℚ) : Int := if 0 ≤ q then ⌊q + 1/2⌋ else ⌈q - 1/2⌉

/-- `std::round(x * 100.0) / 100.0`, the cent rounding in `getOrderBook`. -/
def roundCents (q : ℚ) : ℚ := ((rround (q * 100) : ℚ)) / 100

/-- One side of the synthetic book: level `i` gets price `priceAt i` and a
quantity draw from the shared engine — drawn for EVERY level, before any
filtering (MarketSim.cpp lines 139-155).  The value of a
`uniform_int_distribution` draw is a deterministic function of the engine
output; no verified claim depends on the value, so it is modelled as
truncation of the raw draw. -/
def mkLevels (cfg : SimCfg) (priceAt : ℕ → ℚ) : ℕ → ℕ → SimState →
    List BookLevel × SimState
  | _, 0, s => ([], s)
  | i, n + 1, s =>
      let (qraw, s1) := simDraw cfg s
      let (rest, s2) := mkLevels cfg priceAt (i + 1) n s1
      ({ price := priceAt i, quantity := truncQ qraw } :: rest, s2)

/-- The mid price used by `getOrderBook` (MarketSim.cpp lines 124-128). -/
def bookMid (cfg : SimCfg) (s : SimState) (symbol : String) : ℚ :=
  let m := (alistFind s.lastPrices symbol).getD cfg.startPrice
  if m ≤ 1/100 then cfg.startPrice else m

/-- The spread fraction drawn by `getOrderBook` (MarketSim.cpp line 131):
`0.001 + (normal_draw + 1) * 0.002` — NOT a uniform on [0.001, 0.005]. -/
def bookSpreadPct (eps : ℚ) : ℚ := 1/1000 + (eps + 1) * (2/1000)

/-- The bid price of level `i` (MarketSim.cpp line 141). -/
def bidPriceAt (bidStart step : ℚ) (i : ℕ) : ℚ :=
  roundCents (bidStart - (i : ℚ) * step * 2)

/-- The ask price of level `i` (MarketSim.cpp line 152). -/
def askPriceAt (askStart step : ℚ) (i : ℕ) : ℚ :=
  roundCents (askStart + (i : ℚ) * step * 2)

/-- MarketSim.cpp lines 118-158, `getOrderBook`: one normal draw for the
spread, then `depth` bid levels (kept only when price > 0) and `depth` ask
levels, each with a quantity draw. -/
def simGetOrderBook (cfg : SimCfg) (s : SimState) (symbol : String)
    (depth : ℕ) : OrderBook × SimState :=
  let mid := bookMid cfg s symbol
  let eps := (simDraw cfg s).1
  let s1 := (simDraw cfg s).2
  let halfSpread := mid * bookSpreadPct eps / 2
  let bidStart := mid - halfSpread
  let askStart := mid + halfSpread
  let bidLevels := (mkLevels cfg (bidPriceAt bidStart cfg.step) 0 depth s1).1
  let s2 := (mkLevels cfg (bidPriceAt bidStart cfg.step) 0 depth s1).2
  let askLevels := (mkLevels cfg (askPriceAt askStart cfg.step) 0 depth s2).1
  let s3 := (mkLevels cfg (askPriceAt askStart cfg.step) 0 depth s2).2
  ({ symbol := symbol,
     bids := bidLevels.filter (fun l => 0 < l.price),
     asks := askLevels,
     lastPrice := mid,
     spread := halfSpread * 2 }, s3)

/-! ### Call sequences against the simulator (for the determinism claim) -/

inductive SimCall where
  | mark (symbol : String)
  | nextTick (symbol : String)
  | shouldFill (symbol : String) (side : Char) (limitPx : ℚ)
  | attemptFill (symbol : String) (side : Char) (limitPx : ℚ) (leavesQty : Int)
  | getOrderBook (symbol : String) (depth : ℕ)
deriving Repr, DecidableEq

inductive SimRet where
  | price (p : ℚ)
  | flag (b : Bool)
  | fill (r : FillResult)
  | book (b : OrderBook)
deriving Repr, DecidableEq

def simStepCall (cfg : SimCfg) (s : SimState) : SimCall → SimRet × SimState
  | .mark sym => let (p, s1) := simMark cfg s sym; (.price p, s1)
  | .nextTick sym => let (p, s1) := simNextTick cfg s sym; (.price p, s1)
  | .shouldFill sym side px =>
      let (b, s1) := simShouldFill cfg s sym side px; (.flag b, s1)
  | .attemptFill sym side px leaves =>
      let (r, s1) := simAttemptFill cfg s sym side px leaves; (.fill r, s1)
  | .getOrderBook sym depth =>
      let (b, s1) := simGetOrderBook cfg s sym depth; (.book b, s1)

def runCalls (cfg : SimCfg) (s : SimState) : List SimCall → List SimRet
  | [] => []
  | c :: cs =>
      let (r, s1) := simStepCall cfg s c
      r :: runCalls cfg s1 cs

/-! ### FIX protocol layer (FixApplication.cpp) -/

/-- FixApplication.cpp lines 33-41 and gateway_main.cpp lines 38-40. -/
def MAX_ORDER_QTY : Int := 10000

def MAX_NOTIONAL : ℚ := 1000000

def ORD_REJ_UNKNOWN_SYMBOL : Int := 1

def ORD_REJ_ORDER_EXCEEDS_LIMIT : Int := 3

def ORD_REJ_DUPLICATE_ORDER : Int := 6

def ORD_REJ_OTHER : Int := 99

/-- FIX 4.4 CxlRejReason (tag 102) values used by quickfix. -/
def CXL_REJ_TOO_LATE_TO_CANCEL : Int := 0

def CXL_REJ_UNKNOWN_ORDER : Int := 1

def CXL_REJ_DUPLICATE_CLORDID : Int := 6

/-- Inbound NewOrderSingle, with the optional Price (tag 44). -/
structure NewOrderSingleMsg where
  clOrdId : String
  symbol : String
  side : Char
  orderQty : Int
  price : Option ℚ
deriving Repr, DecidableEq

/-- Inbound OrderCancelRequest. -/
structure OrderCancelRequestMsg where
  origClOrdId : String
  clOrdId : String
  symbol : String
  side : Char
deriving Repr, DecidableEq

/-- Outbound ExecutionReport; FIX ExecType / OrdStatus character codes:
NEW = '0', FILLED = '2', CANCELED = '4', REJECTED = '8', TRADE = 'F'. -/
structure ExecReport where
  orderId : String
  execId : String
  execType : Char
  ordStatus : Char
  side : Char
  leavesQty : Int
  cumQty : Int
  avgPx : ℚ
  clOrdId : String
  symbol : String
  orderQty : Int := 0
  origClOrdId : Option String := none
  ordRejReason : Option Int := none
  text : Option String := none
  price : Option ℚ := none
  lastQty : Option Int := none
  lastPx : Option ℚ := none
deriving Repr, DecidableEq

/-- Outbound OrderCancelReject. -/
structure CancelReject where
  orderId : String
  clOrdId : String
  origClOrdId : String
  ordStatus : Char
  cxlRejReason : Int
deriving Repr, DecidableEq

/-- Gateway state threaded through the handlers: the store, the simulator,
and the three monotonic identifier counters (FixApplication.hpp members,
gateway_main.cpp `uiOrderCounter`). -/
structure GwState where
  store : OrderStore := {}
  sim : SimState := {}
  ordCtr : ℕ := 1
  execCtr : ℕ := 1
  uiCtr : ℕ := 1
deriving Repr, DecidableEq

/-- The price value used throughout the NewOrderSingle handler:
`px = hasPrice ? price.getValue() : 0.0` (FixApplication.cpp line 98). -/
def nosPx (m : NewOrderSingleMsg) : ℚ := m.price.getD 0

/-- FixApplication.cpp lines 101-126, the pre-trade validation chain, first
failure wins; returns the reject `(Text, OrdRejReason)`. -/
def nosValidate (st : OrderStore) (m : NewOrderSingleMsg) :
    Option (String × Int) :=
  if m.symbol = "" then
    some ("Symbol is required", ORD_REJ_UNKNOWN_SYMBOL)
  else if m.side ≠ '1' ∧ m.side ≠ '2' then
    some ("Invalid side (must be 1=Buy or 2=Sell)", ORD_REJ_OTHER)
  else if m.orderQty ≤ 0 then
    some ("OrderQty must be positive", ORD_REJ_OTHER)
  else if m.price.isSome ∧ nosPx m ≤ 0 then
    some ("Price must be positive for limit orders", ORD_REJ_OTHER)
  else if m.orderQty > MAX_ORDER_QTY then
    some ("Order quantity exceeds limit (10000)", ORD_REJ_ORDER_EXCEEDS_LIMIT)
  else if m.price.isSome ∧ (m.orderQty : ℚ) * nosPx m > MAX_NOTIONAL then
    some ("Notional exceeds limit ($1000000)", ORD_REJ_ORDER_EXCEEDS_LIMIT)
  else if st.existsCl m.clOrdId then
    some ("Duplicate ClOrdID", ORD_REJ_DUPLICATE_ORDER)
  else
    none

/-- FixApplication.cpp lines 80-241, `onMessage(NewOrderSingle)`: reject path
(emit REJECTED report, upsert a REJECTED record), or ack path (emit NEW
report, upsert a NEW record, and — when a price is present and `shouldFill`
says yes — emit a TRADE/FILLED report and update the record to FILLED). -/
def fixNewOrder (cfg : SimCfg) (g : GwState) (m : NewOrderSingleMsg)
    (now : String) : List ExecReport × GwState :=
  let qty := m.orderQty
  let px := nosPx m
  let orderId := "ORD" ++ toString g.ordCtr
  let execId := "EXEC" ++ toString g.execCtr
  match nosValidate g.store m with
  | some (reason, code) =>
      let rpt : ExecReport :=
        { orderId := orderId, execId := execId, execType := '8',
          ordStatus := '8', side := m.side, leavesQty := 0, cumQty := 0,
          avgPx := 0, clOrdId := m.clOrdId, symbol := m.symbol,
          orderQty := qty, ordRejReason := some code, text := some reason }
      let record : OrderRecord :=
        { clOrdId := m.clOrdId, orderId := orderId, symbol := m.symbol,
          side := m.side, price := px, quantity := qty, leavesQty := 0,
          cumQty := 0, avgPx := 0, status := "REJECTED",
          rejectReason := reason, transactTime := now }
      ([rpt],
       { g with store := g.store.upsert record,
                ordCtr := g.ordCtr + 1, execCtr := g.execCtr + 1 })
  | none =>
      let ack : ExecReport :=
        { orderId := orderId, execId := execId, execType := '0',
          ordStatus := '0', side := m.side, leavesQty := qty, cumQty := 0,
          avgPx := 0, clOrdId := m.clOrdId, symbol := m.symbol,
          orderQty := qty, price := m.price }
      let record : OrderRecord :=
        { clOrdId := m.clOrdId, orderId := orderId, symbol := m.symbol,
          side := m.side, price := px, quantity := qty, leavesQty := qty,
          cumQty := 0, avgPx := 0, status := "NEW", transactTime := now }
      let st1 := g.store.upsert record
      if m.price.isSome then
        let (fills, sim1) := simShouldFill cfg g.sim m.symbol m.side px
        if fills then
          let fillRpt : ExecReport :=
            { orderId := orderId, execId := "EXEC" ++ toString (g.execCtr + 1),
              execType := 'F', ordStatus := '2', side := m.side,
              leavesQty := 0, cumQty := qty, avgPx := px,
              clOrdId := m.clOrdId, symbol := m.symbol, orderQty := qty,
              price := m.price, lastQty := some qty, lastPx := some px }
          ([ack, fillRpt],
           { g with store := st1.updateStatus m.clOrdId "FILLED" 0 qty px,
                    sim := sim1, ordCtr := g.ordCtr + 1,
                    execCtr := g.execCtr + 2 })
        else
          ([ack], { g with store := st1, sim := sim1,
                           ordCtr := g.ordCtr + 1, execCtr := g.execCtr + 1 })
      else
        ([ack], { g with store := st1,
                         ordCtr := g.ordCtr + 1, execCtr := g.execCtr + 1 })

inductive CancelOutcome where
  | rejected : CancelReject → CancelOutcome
  | executed : ExecReport → CancelOutcome
deriving Repr, DecidableEq

/-- FixApplication.cpp lines 243-322, `onMessage(OrderCancelRequest)`:
absent → reject UNKNOWN_ORDER with OrderID "UNKNOWN"; FILLED → reject
TOO_LATE_TO_CANCEL; CANCELED → reject DUPLICATE_CLORDID; everything else
(NEW, PARTIAL — and also REJECTED) → ExecutionReport CANCELED and
`updateStatus(orig, "CANCELED", 0, 0, 0)`. -/
def fixCancel (g : GwState) (m : OrderCancelRequestMsg) :
    CancelOutcome × GwState :=
  match g.store.get m.origClOrdId with
  | none =>
      (.rejected
        { orderId := "UNKNOWN", clOrdId := m.clOrdId,
          origClOrdId := m.origClOrdId, ordStatus := '8',
          cxlRejReason := CXL_REJ_UNKNOWN_ORDER }, g)
  | some r =>
      if r.status = "FILLED" then
        (.rejected
          { orderId := if r.orderId = "" then "UNKNOWN" else r.orderId,
            clOrdId := m.clOrdId, origClOrdId := m.origClOrdId,
            ordStatus := '2', cxlRejReason := CXL_REJ_TOO_LATE_TO_CANCEL }, g)
      else if r.status = "CANCELED" then
        (.rejected
          { orderId := if r.orderId = "" then "UNKNOWN" else r.orderId,
            clOrdId := m.clOrdId, origClOrdId := m.origClOrdId,
            ordStatus := '4', cxlRejReason := CXL_REJ_DUPLICATE_CLORDID }, g)
      else
        (.executed
          { orderId := m.origClOrdId, execId := "EXEC" ++ toString g.execCtr,
            execType := '4', ordStatus := '4', side := m.side, leavesQty := 0,
            cumQty := 0, avgPx := 0, clOrdId := m.clOrdId, symbol := m.symbol,
            origClOrdId := some m.origClOrdId },
         { g with store := g.store.updateStatus m.origClOrdId "CANCELED" 0 0 0,
                  execCtr := g.execCtr + 1 })

/-! ### UI command handlers (gateway_main.cpp) -/

structure OrderRequest where
  clOrdId : String
  symbol : String
  side : Char
  quantity : Int
  price : ℚ
  orderType : Char
deriving Repr, DecidableEq

structure CancelRequest where
  origClOrdId : String
  clOrdId : String
deriving Repr, DecidableEq

structure AmendRequest where
  origClOrdId : String
  clOrdId : String
  newQuantity : Int
  newPrice : ℚ
deriving Repr, DecidableEq

/-- gateway_main.cpp lines 206-292, the UI order handler.  Market orders
(`orderType = '1'`) consult `mark` for the price (mutating the simulator even
when a later check fails) and fill immediately at the next tick. -/
def uiOrder (cfg : SimCfg) (g : GwState) (req : OrderRequest) (now : String)
    (submitUs ackUs : Int) : Bool × String × GwState :=
  if req.symbol = "" then (false, "Symbol is required", g)
  else if req.side ≠ '1' ∧ req.side ≠ '2' then
    (false, "Invalid side (must be 1=Buy or 2=Sell)", g)
  else if req.quantity ≤ 0 then (false, "Quantity must be positive", g)
  else if req.orderType ≠ '1' ∧ req.price ≤ 0 then
    (false, "Price must be positive for Limit orders", g)
  else if req.quantity > MAX_ORDER_QTY then
    (false, "Order quantity exceeds limit (10000)", g)
  else
    let isMarket := req.orderType = '1'
    let (orderPrice, sim1) :=
      if isMarket then simMark cfg g.sim req.symbol else (req.price, g.sim)
    if (req.quantity : ℚ) * orderPrice > MAX_NOTIONAL then
      (false, "Notional exceeds limit ($1000000)", { g with sim := sim1 })
    else if g.store.existsCl req.clOrdId then
      (false, "Duplicate ClOrdID", { g with sim := sim1 })
    else
      let orderId := "UI_ORD" ++ toString g.uiCtr
      let record : OrderRecord :=
        { clOrdId := req.clOrdId, orderId := orderId, symbol := req.symbol,
          side := req.side, price := orderPrice, quantity := req.quantity,
          leavesQty := req.quantity, cumQty := 0, avgPx := 0, status := "NEW",
          transactTime := now, submitTimeUs := submitUs, ackTimeUs := ackUs,
          latencyUs := ackUs - submitUs }
      let st1 := g.store.upsert record
      if isMarket then
        let (fillPrice, sim2) := simNextTick cfg sim1 req.symbol
        (true, "",
         { g with store := st1.updateStatus req.clOrdId "FILLED" 0
                    req.quantity fillPrice,
                  sim := sim2, uiCtr := g.uiCtr + 1 })
      else
        (true, "", { g with store := st1, sim := sim1, uiCtr := g.uiCtr + 1 })

/-- gateway_main.cpp lines 295-324, the UI cancel handler: unlike the FIX
path it refuses REJECTED orders too. -/
def uiCancel (g : GwState) (req : CancelRequest) : Bool × String × GwState :=
  match g.store.get req.origClOrdId with
  | none => (false, "Unknown order: " ++ req.origClOrdId, g)
  | some r =>
      if r.status = "FILLED" then (false, "Cannot cancel filled order", g)
      else if r.status = "CANCELED" then (false, "Order already canceled", g)
      else if r.status = "REJECTED" then
        (false, "Cannot cancel rejected order", g)
      else
        (true, "",
         { g with store := g.store.updateStatus req.origClOrdId "CANCELED" 0 0 0 })

/-- gateway_main.cpp lines 354-368, the quantity leg of the amend handler:
only fires when `newQuantity > 0` and differs from the current quantity; an
increase is refused, and so is any value ≤ `cumQty` (equality included). -/
def amendQty (r0 : OrderRecord) (req : AmendRequest) :
    Except String (OrderRecord × Bool) :=
  if req.newQuantity > 0 ∧ req.newQuantity ≠ r0.quantity then
    if req.newQuantity > r0.quantity then
      .error "Cannot increase order quantity (only reduce)"
    else if req.newQuantity ≤ r0.cumQty then
      .error "New quantity must be greater than already filled quantity"
    else
      .ok ({ r0 with quantity := req.newQuantity,
                     leavesQty := req.newQuantity - r0.cumQty }, true)
  else .ok (r0, false)

/-- gateway_main.cpp lines 370-381, the price leg: only fires when
`newPrice > 0` and moves by more than 1e-4; the risk check is
`leavesQty * newPrice ≤ 1e6` on the (possibly already quantity-amended)
record. -/
def amendPrice (r1 : OrderRecord) (req : AmendRequest) (amended : Bool) :
    Except String (OrderRecord × Bool) :=
  if req.newPrice > 0 ∧ |req.newPrice - r1.price| > 1/10000 then
    if (r1.leavesQty : ℚ) * req.newPrice > MAX_NOTIONAL then
      .error "Amended notional exceeds limit"
    else .ok ({ r1 with price := req.newPrice }, true)
  else .ok (r1, amended)

/-- gateway_main.cpp lines 327-403, the amend handler: status gate, the two
amendment legs, the "No changes specified" gate, then upsert under the new
`clOrdId` and remove the old key when it differs. -/
def uiAmend (g : GwState) (req : AmendRequest) (now : String) :
    Bool × String × GwState :=
  match g.store.get req.origClOrdId with
  | none => (false, "Unknown order: " ++ req.origClOrdId, g)
  | some r0 =>
      if r0.status = "FILLED" then (false, "Cannot amend filled order", g)
      else if r0.status = "CANCELED" then (false, "Cannot amend canceled order", g)
      else if r0.status = "REJECTED" then (false, "Cannot amend rejected order", g)
      else
        match amendQty r0 req with
        | .error e => (false, e, g)
        | .ok (r1, am1) =>
            match amendPrice r1 req am1 with
            | .error e => (false, e, g)
            | .ok (r2, am2) =>
                if am2 = false then (false, "No changes specified", g)
                else
                  let r3 := { r2 with clOrdId := req.clOrdId, transactTime := now }
                  let st1 := g.store.upsert r3
                  let st2 := if req.clOrdId ≠ req.origClOrdId then
                      st1.remove req.origClOrdId else st1
                  (true, "", { g with store := st2 })

/-! ### Fill loop (gateway_main.cpp, `FillSimulator::run`, lines 77-105) -/

/-- The VWAP update rule of the fill loop (gateway_main.cpp lines 89-93):
`newCum = cum + fillQty` and
`newAvg = (avgPx*cumQty + fillPx*fillQty) / newCum`. -/
def vwapStep (cumQty : Int) (avgPx : ℚ) (fillQty : Int) (fillPx : ℚ) :
    Int × ℚ :=
  (cumQty + fillQty,
   (avgPx * (cumQty : ℚ) + fillPx * (fillQty : ℚ)) / ((cumQty + fillQty : Int) : ℚ))

/-- One iteration of the fill loop's inner `for` (gateway_main.cpp
lines 85-98). -/
def fillOne (cfg : SimCfg) (g : GwState) (o : OrderRecord) : GwState :=
  let (res, sim1) := simAttemptFill cfg g.sim o.symbol o.side o.price o.leavesQty
  if res.fillQty > 0 then
    let (newCumQty, newAvgPx) := vwapStep o.cumQty o.avgPx res.fillQty res.fillPx
    let newLeavesQty := o.quantity - newCumQty
    let newStatus := if newLeavesQty ≤ 0 then "FILLED" else "PARTIAL"
    { g with
      store := g.store.updateStatus o.clOrdId newStatus newLeavesQty newCumQty newAvgPx,
      sim := sim1 }
  else { g with sim := sim1 }

/-- One wake of the fill loop: snapshot the open orders, then fold the
per-order fill over them. -/
def fillTick (cfg : SimCfg) (g : GwState) : GwState :=
  g.store.getOpenOrders.foldl (fillOne cfg) g

/-! ### The gateway operations, as a single step type (for the terminality
claim) -/

inductive GwOp where
  | fixNew (m : NewOrderSingleMsg) (now : String)
  | fixCancel (m : OrderCancelRequestMsg)
  | uiOrder (req : OrderRequest) (now : String) (submitUs ackUs : Int)
  | uiCancel (req : CancelRequest)
  | uiAmend (req : AmendRequest) (now : String)
  | fillTick

def applyOp (cfg : SimCfg) (g : GwState) : GwOp → GwState
  | .fixNew m now => (fixNewOrder cfg g m now).2
  | .fixCancel m => (QfBlotter.fixCancel g m).2
  | .uiOrder req now su au => (QfBlotter.uiOrder cfg g req now su au).2.2
  | .uiCancel req => (QfBlotter.uiCancel g req).2.2
  | .uiAmend req now => (QfBlotter.uiAmend g req now).2.2
  | .fillTick => QfBlotter.fillTick cfg g

/-- Well-formedness maintained by the store: the map keys are unique and
every entry is stored under its own `clOrdId`. -/
def StoreWF (st : OrderStore) : Prop :=
  (st.orders.map Prod.fst).Nodup ∧ ∀ kv ∈ st.orders, kv.2.clOrdId = kv.1

/-- The status of an order as observed through `get`. -/
def statusOf (g : GwState) (c : String) : Option String :=
  (g.store.get c).map (fun r => r.status)

/-! ### Spec-side definitions used for refinement-style claims -/

/-- The admission table of spec §4.2, in order: a failed check's flag with
its Text and OrdRejReason. -/
def nosChecks (st : OrderStore) (m : NewOrderSingleMsg) :
    List (Bool × String × Int) :=
  [(decide (m.symbol = ""), "Symbol is required", ORD_REJ_UNKNOWN_SYMBOL),
   (decide (m.side ≠ '1' ∧ m.side ≠ '2'),
    "Invalid side (must be 1=Buy or 2=Sell)", ORD_REJ_OTHER),
   (decide (m.orderQty ≤ 0), "OrderQty must be positive", ORD_REJ_OTHER),
   (decide (m.price.isSome ∧ nosPx m ≤ 0),
    "Price must be positive for limit orders", ORD_REJ_OTHER),
   (decide (m.orderQty > MAX_ORDER_QTY),
    "Order quantity exceeds limit (10000)", ORD_REJ_ORDER_EXCEEDS_LIMIT),
   (decide (m.price.isSome ∧ (m.orderQty : ℚ) * nosPx m > MAX_NOTIONAL),
    "Notional exceeds limit ($1000000)", ORD_REJ_ORDER_EXCEEDS_LIMIT),
   (st.existsCl m.clOrdId, "Duplicate ClOrdID", ORD_REJ_DUPLICATE_ORDER)]

/-- First failing check wins. -/
def firstFailure : List (Bool × String × Int) → Option (String × Int)
  | [] => none
  | (b, reason, code) :: rest =>
      if b then some (reason, code) else firstFailure rest

/-- The claim's description of the P99 statistic: the element at the floor of
the 99th-percentile index of the ascending-sorted positive latencies,
clamped to the last index. -/
def p99Spec (st : OrderStore) : Int :=
  let lat := sortAsc ((((st.orders.map Prod.snd).filter
    (fun o => o.latencyUs > 0)).map (fun o => o.latencyUs)))
  if lat.isEmpty then 0
  else lat.getD (min (lat.length * 99 / 100) (lat.length - 1)) 0

/-- A single fill, for stating the VWAP law. -/
structure Fill where
  qty : Int
  px : ℚ
deriving Repr, DecidableEq

/-- A sequence of fills pushed through the fill loop's update rule
`vwapStep`, starting from a given `(cumQty, avgPx)`. -/
def applyFills : List Fill → Int → ℚ → Int × ℚ
  | [], cum, avg => (cum, avg)
  | f :: fs, cum, avg =>
      let (c, a) := vwapStep cum avg f.qty f.px
      applyFills fs c a

/-! ### Association-list and store frame lemmas -/

theorem alistFind_append_ne {α : Type} (l : List (String × α)) (k c : String)
    (v : α) (h : k ≠ c) : alistFind (l ++ [(k, v)]) c = alistFind l c := by
  induction l with
  | nil => simp [alistFind, h]
  | cons kv rest ih =>
      by_cases h2 : kv.1 = c <;> simp [alistFind, h2, ih]

theorem alistFind_replace_ne {α : Type} (l : List (String × α)) (k c : String)
    (v : α) (h : k ≠ c) : alistFind (alistReplace l k v) c = alistFind l c := by
  induction l with
  | nil => rfl
  | cons kv rest ih =>
      by_cases h2 : kv.1 = k
      · have h3 : kv.1 ≠ c := h2 ▸ h
        simp [alistReplace, alistFind, h2, h3, h, ih, Ne.symm h]
      · by_cases h3 : kv.1 = c <;>
          simp [alistReplace, alistFind, h2, h3, h, ih, Ne.symm h]

theorem alistFind_filterOut_ne {α : Type} (l : List (String × α)) (k c : String)
    (h : k ≠ c) :
    alistFind (l.filter (fun kv => kv.1 ≠ k)) c = alistFind l c := by
  induction l with
  | nil => rfl
  | cons kv rest ih =>
      by_cases h2 : kv.1 = k
      · have h3 : kv.1 ≠ c := h2 ▸ h
        have hf : (kv :: rest).filter (fun kv => kv.1 ≠ k) =
            rest.filter (fun kv => kv.1 ≠ k) := by
          simp [List.filter_cons, h2]
        rw [hf, ih]
        simp [alistFind, h3]
      · have hf : (kv :: rest).filter (fun kv => kv.1 ≠ k) =
            kv :: rest.filter (fun kv => kv.1 ≠ k) := by
          simp [List.filter_cons, h2]
        rw [hf]
        by_cases h3 : kv.1 = c
        · simp only [alistFind, if_pos h3]
        · simp only [alistFind, if_neg h3]
          exact ih

theorem alistFind_append_self {α : Type} (l : List (String × α)) (k : String)
    (v : α) (h : alistFind l k = none) :
    alistFind (l ++ [(k, v)]) k = some v := by
  induction l with
  | nil => simp [alistFind]
  | cons kv rest ih =>
      by_cases h2 : kv.1 = k
      · simp [alistFind, h2] at h
      · simp [alistFind, h2] at h ⊢
        exact ih h

theorem alistFind_replace_self {α : Type} (l : List (String × α)) (k : String)
    (v w : α) (h : alistFind l k = some w) :
    alistFind (alistReplace l k v) k = some v := by
  induction l with
  | nil => simp [alistFind] at h
  | cons kv rest ih =>
      by_cases h2 : kv.1 = k
      · simp [alistReplace, alistFind, h2]
      · simp [alistReplace, alistFind, h2] at h ⊢
        exact ih h

theorem OrderStore.get_upsert_ne (st : OrderStore) (r : OrderRecord)
    (c : String) (h : r.clOrdId ≠ c) : (st.upsert r).get c = st.get c := by
  unfold OrderStore.upsert OrderStore.get
  cases hv : alistFind st.orders r.clOrdId with
  | none => exact alistFind_append_ne _ _ _ _ h
  | some _ => exact alistFind_replace_ne _ _ _ _ h

theorem OrderStore.get_upsert_self (st : OrderStore) (r : OrderRecord) :
    (st.upsert r).get r.clOrdId = some r := by
  unfold OrderStore.upsert OrderStore.get
  cases hv : alistFind st.orders r.clOrdId with
  | none => exact alistFind_append_self _ _ _ hv
  | some w => exact alistFind_replace_self _ _ _ _ hv

theorem OrderStore.get_updateStatus_ne (st : OrderStore) (k status : String)
    (lv cm : Int) (av : ℚ) (c : String) (h : k ≠ c) :
    (st.updateStatus k status lv cm av).get c = st.get c := by
  unfold OrderStore.updateStatus OrderStore.get
  cases hv : alistFind st.orders k with
  | none => rfl
  | some r => exact alistFind_replace_ne _ _ _ _ h

theorem OrderStore.get_updateStatus_self (st : OrderStore) (k status : String)
    (lv cm : Int) (av : ℚ) (r : OrderRecord) (h : st.get k = some r) :
    (st.updateStatus k status lv cm av).get k =
      some { r with status := status, leavesQty := lv, cumQty := cm, avgPx := av } := by
  unfold OrderStore.updateStatus OrderStore.get
  unfold OrderStore.get at h
  rw [h]
  exact alistFind_replace_self _ _ _ _ h

theorem OrderStore.get_remove_ne (st : OrderStore) (k c : String) (h : k ≠ c) :
    (st.remove k).get c = st.get c := by
  unfold OrderStore.remove OrderStore.get
  exact alistFind_filterOut_ne _ _ _ h

theorem OrderStore.existsCl_of_get (st : OrderStore) (c : String)
    (r : OrderRecord) (h : st.get c = some r) : st.existsCl c = true := by
  unfold OrderStore.existsCl
  rw [h]
  rfl

theorem alistFind_of_mem_nodup {α : Type} (l : List (String × α)) (k : String)
    (v : α) (hmem : (k, v) ∈ l) (hnd : (l.map Prod.fst).Nodup) :
    alistFind l k = some v := by
  induction l with
  | nil => simp at hmem
  | cons kv rest ih =>
      rcases List.mem_cons.mp hmem with h | h
      · rw [← h]
        simp [alistFind]
      · have hk : k ∈ rest.map Prod.fst :=
          List.mem_map.mpr ⟨(k, v), h, rfl⟩
        have hne : kv.1 ≠ k := by
          intro he
          have := (List.nodup_cons.mp hnd).1
          exact this (he ▸ hk)
        simp only [alistFind, if_neg hne]
        exact ih h ((List.nodup_cons.mp hnd).2)

/-! ### Handler frame lemmas (for the terminality claim) -/

theorem fixNewOrder_get_ne (cfg : SimCfg) (g : GwState) (m : NewOrderSingleMsg)
    (now : String) (c : String) (h : m.clOrdId ≠ c) :
    (fixNewOrder cfg g m now).2.store.get c = g.store.get c := by
  unfold fixNewOrder
  cases hv : nosValidate g.store m with
  | some rc =>
      obtain ⟨reason, code⟩ := rc
      simpa using OrderStore.get_upsert_ne g.store _ c h
  | none =>
      by_cases hp : m.price.isSome
      · rcases hsf : simShouldFill cfg g.sim m.symbol m.side (nosPx m) with ⟨fills, sim1⟩
        cases fills
        · simp only [hp, hsf, if_true, Bool.false_eq_true, if_false]
          simpa using OrderStore.get_upsert_ne g.store _ c h
        · simp only [hp, hsf, if_true]
          rw [OrderStore.get_updateStatus_ne _ _ _ _ _ _ _ h]
          simpa using OrderStore.get_upsert_ne g.store _ c h
      · simp only [hp, Bool.false_eq_true, if_false]
        simpa using OrderStore.get_upsert_ne g.store _ c h

theorem fixCancel_get_ne (g : GwState) (m : OrderCancelRequestMsg) (c : String)
    (h : m.origClOrdId ≠ c) :
    (fixCancel g m).2.store.get c = g.store.get c := by
  unfold fixCancel
  cases hv : g.store.get m.origClOrdId with
  | none => rfl
  | some r =>
      by_cases h1 : r.status = "FILLED"
      · simp [h1]
      · by_cases h2 : r.status = "CANCELED"
        · simp [h1, h2]
        · simp only [h1, h2, if_neg, if_false]
          simpa using OrderStore.get_updateStatus_ne g.store _ _ _ _ _ _ h

/-- A FIX cancel against a FILLED or CANCELED order changes nothing. -/
theorem fixCancel_terminal_noop (g : GwState) (m : OrderCancelRequestMsg)
    (r : OrderRecord) (hget : g.store.get m.origClOrdId = some r)
    (hterm : r.status = "FILLED" ∨ r.status = "CANCELED") :
    (fixCancel g m).2 = g := by
  unfold fixCancel
  rw [hget]
  rcases hterm with h | h <;> simp [h]

theorem uiOrder_get_frame (cfg : SimCfg) (g : GwState) (req : OrderRequest)
    (now : String) (su au : Int) (c : String) (r : OrderRecord)
    (hget : g.store.get c = some r) :
    (uiOrder cfg g req now su au).2.2.store.get c = some r := by
  unfold uiOrder
  by_cases h1 : req.symbol = ""
  · simp [h1, hget]
  by_cases h2 : req.side ≠ '1' ∧ req.side ≠ '2'
  · simp [h1, h2, hget]
  by_cases h3 : req.quantity ≤ 0
  · simp [h1, h2, h3, hget]
  by_cases h4 : req.orderType ≠ '1' ∧ req.price ≤ 0
  · simp [h1, h2, h3, h4, hget]
  by_cases h5 : req.quantity > MAX_ORDER_QTY
  · simp [h1, h2, h3, h4, h5, hget]
  simp only [h1, h2, h3, h4, h5, if_false]
  rcases hmk : (if req.orderType = '1' then simMark cfg g.sim req.symbol
      else (req.price, g.sim)) with ⟨orderPrice, sim1⟩
  by_cases h6 : (req.quantity : ℚ) * orderPrice > MAX_NOTIONAL
  · simp [hmk, h6, hget]
  by_cases h7 : g.store.existsCl req.clOrdId
  · simp [hmk, h6, h7, hget]
  have hne : req.clOrdId ≠ c := by
    intro he
    exact h7 (he ▸ OrderStore.existsCl_of_get g.store c r hget)
  by_cases h8 : req.orderType = '1'
  · rcases hnt : simNextTick cfg sim1 req.symbol with ⟨fillPrice, sim2⟩
    simp only [hmk, h6, h7, h8, if_true, if_false, hnt]
    simp only [Bool.false_eq_true, if_false]
    rw [OrderStore.get_updateStatus_ne _ _ _ _ _ _ _ hne,
      OrderStore.get_upsert_ne _ _ _ hne]
    exact hget
  · simp only [hmk, h6, h7, h8, if_false]
    simp only [Bool.false_eq_true, if_false]
    rw [OrderStore.get_upsert_ne _ _ _ hne]
    exact hget

theorem uiCancel_get_frame (g : GwState) (req : CancelRequest) (c : String)
    (r : OrderRecord) (hget : g.store.get c = some r)
    (hterm : r.status = "FILLED" ∨ r.status = "REJECTED" ∨ r.status = "CANCELED") :
    (uiCancel g req).2.2.store.get c = some r := by
  unfold uiCancel
  cases hv : g.store.get req.origClOrdId with
  | none => exact hget
  | some r2 =>
      by_cases h1 : r2.status = "FILLED"
      · simp [h1, hget]
      by_cases h2 : r2.status = "CANCELED"
      · simp [h1, h2, hget]
      by_cases h3 : r2.status = "REJECTED"
      · simp [h1, h2, h3, hget]
      have hne : req.origClOrdId ≠ c := by
        intro he
        rw [he, hget] at hv
        cases hv
        rcases hterm with ht | ht | ht
        · exact h1 ht
        · exact h3 ht
        · exact h2 ht
      simp only [h1, h2, h3, if_false]
      rw [OrderStore.get_updateStatus_ne _ _ _ _ _ _ _ hne]
      exact hget

theorem uiAmend_get_frame (g : GwState) (req : AmendRequest) (now : String)
    (c : String) (r : OrderRecord) (hget : g.store.get c = some r)
    (hterm : r.status = "FILLED" ∨ r.status = "REJECTED" ∨ r.status = "CANCELED")
    (hne : req.clOrdId ≠ c) :
    (uiAmend g req now).2.2.store.get c = some r := by
  unfold uiAmend
  cases hv : g.store.get req.origClOrdId with
  | none => exact hget
  | some r0 =>
      by_cases h1 : r0.status = "FILLED"
      · simp [h1, hget]
      by_cases h2 : r0.status = "CANCELED"
      · simp [h1, h2, hget]
      by_cases h3 : r0.status = "REJECTED"
      · simp [h1, h2, h3, hget]
      have hneo : req.origClOrdId ≠ c := by
        intro he
        rw [he, hget] at hv
        cases hv
        rcases hterm with ht | ht | ht
        · exact h1 ht
        · exact h3 ht
        · exact h2 ht
      simp only [h1, h2, h3, if_false]
      cases hq : amendQty r0 req with
      | error e => simp [hq, hget]
      | ok p1 =>
          obtain ⟨r1, am1⟩ := p1
          cases hpz : amendPrice r1 req am1 with
          | error e => simp [hq, hpz, hget]
          | ok p2 =>
              obtain ⟨r2, am2⟩ := p2
              cases am2 with
              | false => simp [hq, hpz, hget]
              | true =>
                  simp only [hq, hpz]
                  rw [if_neg (show ¬(true = false) by decide)]
                  by_cases h9 : req.clOrdId ≠ req.origClOrdId
                  · rw [if_pos h9, OrderStore.get_remove_ne _ _ _ hneo,
                      OrderStore.get_upsert_ne _ _ _ hne]
                    exact hget
                  · rw [if_neg h9, OrderStore.get_upsert_ne _ _ _ hne]
                    exact hget

theorem fillOne_get_ne (cfg : SimCfg) (g : GwState) (o : OrderRecord)
    (c : String) (h : o.clOrdId ≠ c) :
    (fillOne cfg g o).store.get c = g.store.get c := by
  unfold fillOne
  rcases haf : simAttemptFill cfg g.sim o.symbol o.side o.price o.leavesQty
    with ⟨res, sim1⟩
  rcases hvw : vwapStep o.cumQty o.avgPx res.fillQty res.fillPx with ⟨nc, na⟩
  by_cases hq : res.fillQty > 0
  · simp only [haf, hvw, hq, if_true]
    exact OrderStore.get_updateStatus_ne _ _ _ _ _ _ _ h
  · simp [haf, hvw, hq]

theorem foldl_fillOne_get (cfg : SimCfg) (l : List OrderRecord) (g : GwState)
    (c : String) (h : ∀ o ∈ l, o.clOrdId ≠ c) :
    (l.foldl (fillOne cfg) g).store.get c = g.store.get c := by
  induction l generalizing g with
  | nil => rfl
  | cons o rest ih =>
      rw [List.foldl_cons,
        ih _ (fun o2 ho2 => h o2 (List.mem_cons_of_mem _ ho2)),
        fillOne_get_ne cfg g o c (h o (List.mem_cons_self _ _))]

theorem fillTick_get_frame (cfg : SimCfg) (g : GwState) (c : String)
    (r : OrderRecord) (hwf : StoreWF g.store) (hget : g.store.get c = some r)
    (hterm : r.status = "FILLED" ∨ r.status = "REJECTED" ∨ r.status = "CANCELED") :
    (fillTick cfg g).store.get c = some r := by
  unfold fillTick
  rw [foldl_fillOne_get]
  · exact hget
  · intro o ho
    obtain ⟨ho2, hstat⟩ := List.mem_filter.mp ho
    obtain ⟨kv, hkv, hsnd⟩ := List.mem_map.mp ho2
    intro he
    have h1 : kv.2.clOrdId = kv.1 := hwf.2 kv hkv
    have hkc : kv.1 = c := by rw [← h1, hsnd, he]
    have hfind : alistFind g.store.orders kv.1 = some kv.2 :=
      alistFind_of_mem_nodup _ _ _ hkv hwf.1
    rw [hkc] at hfind
    have hgc : alistFind g.store.orders c = some r := hget
    rw [hgc] at hfind
    have hor : kv.2 = r := by
      cases hfind
      rfl
    rw [hsnd] at hor
    rw [hor] at hstat
    simp only [Bool.or_eq_true, decide_eq_true_eq] at hstat
    rcases hstat with h | h <;> rcases hterm with ht | ht | ht <;>
      rw [h] at ht <;> exact absurd ht (by decide)

/-! ### Claim C2 — terminal-state frame -/

/-- C2 (amended): in any well-formed gateway state, an order whose status is
FILLED, REJECTED or CANCELED is left completely unchanged by every gateway
operation, EXCEPT that (i) a FIX NewOrderSingle reusing the same clOrdId
overwrites the record, (ii) a UI amend whose new clOrdId collides with it
overwrites the record, and (iii) a FIX OrderCancelRequest naming a REJECTED
order moves it to CANCELED. -/
theorem gw_terminal_frame (cfg : SimCfg) (g : GwState) (c : String)
    (r : OrderRecord) (op : GwOp)
    (hwf : StoreWF g.store)
    (hget : g.store.get c = some r)
    (hterm : r.status = "FILLED" ∨ r.status = "REJECTED" ∨ r.status = "CANCELED")
    (hN : ∀ m now, op = GwOp.fixNew m now → m.clOrdId ≠ c)
    (hA : ∀ req now, op = GwOp.uiAmend req now → req.clOrdId ≠ c)
    (hC : ∀ m, op = GwOp.fixCancel m → m.origClOrdId = c → r.status ≠ "REJECTED") :
    (applyOp cfg g op).store.get c = some r := by
  cases op with
  | fixNew m now =>
      show (fixNewOrder cfg g m now).2.store.get c = some r
      rw [fixNewOrder_get_ne cfg g m now c (hN m now rfl)]
      exact hget
  | fixCancel m =>
      show (fixCancel g m).2.store.get c = some r
      by_cases he : m.origClOrdId = c
      · have hnr := hC m rfl he
        have hterm2 : r.status = "FILLED" ∨ r.status = "CANCELED" := by
          rcases hterm with h | h | h

          · exact Or.inl h
          · exact absurd h hnr
          · exact Or.inr h
        rw [fixCancel_terminal_noop g m r (by rw [he]; exact hget) hterm2]
        exact hget
      · rw [fixCancel_get_ne g m c he]
        exact hget
  | uiOrder req now su au =>
      exact uiOrder_get_frame cfg g req now su au c r hget
  | uiCancel req =>
      exact uiCancel_get_frame g req c r hget hterm
  | uiAmend req now =>
      exact uiAmend_get_frame g req now c r hget hterm (hA req now rfl)
  | fillTick =>
      exact fillTick_get_frame cfg g c r hwf hget hterm

/-- A fixed draw stream for concrete executions. -/
def cfg0 : SimCfg := { entropy := fun _ => 0 }

/-- Submit a NewOrderSingle with qty 0: it is rejected pre-trade and the
record "A" is stored REJECTED. -/
def gRejected : GwState :=
  applyOp cfg0 {}
    (.fixNew { clOrdId := "A", symbol := "S", side := '1', orderQty := 0,
               price := none } "T0")

/-- Then a FIX OrderCancelRequest naming "A". -/
def gAfterCancel : GwState :=
  applyOp cfg0 gRejected
    (.fixCancel { origClOrdId := "A", clOrdId := "B", symbol := "S", side := '1' })

/-- C2 counterexample: a FIX OrderCancelRequest DOES move a REJECTED order to
CANCELED — REJECTED is not terminal under the gateway's own operations
(FixApplication.cpp lines 282-321 only shield FILLED and CANCELED). -/
theorem fix_cancel_moves_rejected_to_canceled :
    statusOf gRejected "A" = some "REJECTED" ∧
    statusOf gAfterCancel "A" = some "CANCELED" := by
  constructor <;> rfl

/-- Witness for `gw_terminal_frame` at a concrete input: a FILLED order
survives a fill-loop tick untouched. -/
def wFilledRec : OrderRecord :=
  { clOrdId := "X", orderId := "ORD1", symbol := "AAPL", side := '1',
    price := 150, quantity := 100, leavesQty := 0, cumQty := 100,
    avgPx := 150, status := "FILLED" }

def wFilledGw : GwState := { store := OrderStore.upsert {} wFilledRec }

theorem gw_terminal_frame_witness :
    (applyOp cfg0 wFilledGw .fillTick).store.get "X" = some wFilledRec :=
  gw_terminal_frame cfg0 wFilledGw "X" wFilledRec .fillTick
    (by constructor
        · decide
        · decide)
    (by rfl)
    (by left; rfl)
    (by intro m now h; cases h)
    (by intro req now h; cases h)
    (by intro m h; cases h)

/-! ### Claim C10 — attemptFill with non-positive leaves is a pure no-op -/

/-- C10: `MarketSim::attemptFill` called with `leavesQty ≤ 0` returns the
zero fill (fillQty 0, fillPx 0, complete false) and leaves the simulator
state — per-symbol prices and RNG position — unchanged, so every subsequent
call sequence returns exactly what it would have without this call. -/
theorem attemptFill_nonpositive_noop (cfg : SimCfg) (s : SimState)
    (symbol : String) (side : Char) (limitPx : ℚ) (leavesQty : Int)
    (h : leavesQty ≤ 0) :
    simAttemptFill cfg s symbol side limitPx leavesQty =
      ({ fillQty := 0, fillPx := 0, complete := false }, s) ∧
    ∀ calls : List SimCall,
      runCalls cfg (simAttemptFill cfg s symbol side limitPx leavesQty).2 calls =
        runCalls cfg s calls := by
  have h1 : simAttemptFill cfg s symbol side limitPx leavesQty =
      ({ fillQty := 0, fillPx := 0, complete := false }, s) := by
    unfold simAttemptFill
    rw [if_pos h]
  exact ⟨h1, fun calls => by rw [h1]⟩

theorem attemptFill_nonpositive_noop_witness :
    simAttemptFill cfg0 {} "AAPL" '1' 150 0 =
      ({ fillQty := 0, fillPx := 0, complete := false }, ({} : SimState)) :=
  (attemptFill_nonpositive_noop cfg0 {} "AAPL" '1' 150 0 (by decide)).1

/-! ### Claim C7 — simulator determinism -/

/-- C7: two simulators with the same seed (hence the same draw stream — the
`std::mt19937` engine is a deterministic function of its seed, and every
draw happens under the simulator lock), the same start price and the same
step return identical values on every identical call sequence. -/
theorem sim_determinism (c1 c2 : SimCfg) (hseed : c1.entropy = c2.entropy)
    (hstart : c1.startPrice = c2.startPrice) (hstep : c1.step = c2.step)
    (s : SimState) (calls : List SimCall) :
    runCalls c1 s calls = runCalls c2 s calls := by
  have he : c1 = c2 := by
    cases c1
    cases c2
    simp_all
  rw [he]

def cfgA : SimCfg := { entropy := fun n => (n : ℚ) + 1 }

def cfgB : SimCfg := { entropy := fun n => 1 + (n : ℚ) }

def wCalls : List SimCall :=
  [.mark "AAPL", .nextTick "AAPL", .shouldFill "AAPL" '1' 200,
   .attemptFill "AAPL" '1' 200 500, .getOrderBook "AAPL" 2]

theorem sim_determinism_witness :
    runCalls cfgA {} wCalls = runCalls cfgB {} wCalls :=
  sim_determinism cfgA cfgB (funext fun n => add_comm ((n : ℚ)) 1) rfl rfl {} wCalls

/-! ### Claim C5 — the VWAP law -/

theorem applyFills_invariant (fills : List Fill) (cum : Int) (avg : ℚ)
    (hc : 0 ≤ cum) (hpos : ∀ f ∈ fills, 0 < f.qty) :
    0 ≤ (applyFills fills cum avg).1 ∧
    (applyFills fills cum avg).2 * ((applyFills fills cum avg).1 : ℚ) =
      avg * (cum : ℚ) + (fills.map (fun f => (f.qty : ℚ) * f.px)).sum := by
  induction fills generalizing cum avg with
  | nil => simpa [applyFills]
  | cons f fs ih =>
      have hq : 0 < f.qty := hpos f (List.mem_cons_self _ _)
      have hc2 : (0 : Int) ≤ cum + f.qty := by omega
      have hne : ((cum + f.qty : Int) : ℚ) ≠ 0 := by
        have : (0 : Int) < cum + f.qty := by omega
        exact_mod_cast this.ne.symm
      have hrec := ih (cum + f.qty)
        ((avg * (cum : ℚ) + f.px * (f.qty : ℚ)) / ((cum + f.qty : Int) : ℚ))
        hc2 (fun f2 hf2 => hpos f2 (List.mem_cons_of_mem _ hf2))
      refine ⟨?_, ?_⟩
      · simpa [applyFills, vwapStep] using hrec.1
      · have h2 := hrec.2
        rw [div_mul_cancel₀ _ hne] at h2
        simp only [applyFills, vwapStep, List.map_cons, List.sum_cons]
        rw [h2]
        ring
/-- C5: pushing any sequence of positive fills `(qᵢ, pᵢ)` through the fill
loop's update rule `avgPx = (avgPx·cumQty + fillPx·fillQty)/(cumQty+fillQty)`
starting from `cumQty = 0, avgPx = 0` gives `avgPx · cumQty = Σ qᵢ·pᵢ`
exactly — the model computes over exact rationals, so the result is within
any tolerance, in particular 1e-6. -/
theorem vwap_law (fills : List Fill) (hpos : ∀ f ∈ fills, 0 < f.qty) :
    (applyFills fills 0 0).2 * ((applyFills fills 0 0).1 : ℚ) =
      (fills.map (fun f => (f.qty : ℚ) * f.px)).sum ∧
    |(applyFills fills 0 0).2 * ((applyFills fills 0 0).1 : ℚ) -
      (fills.map (fun f => (f.qty : ℚ) * f.px)).sum| ≤ 1/1000000 := by
  have h := (applyFills_invariant fills 0 0 (le_refl 0) hpos).2
  rw [Int.cast_zero, zero_mul, zero_add] at h
  exact ⟨h, by rw [h]; simp⟩

/-- The spec §8 "Partial then full" scenario: fills 300@151.50 then
700@150.50. -/
def wFills : List Fill := [{ qty := 300, px := 303/2 }, { qty := 700, px := 301/2 }]

theorem vwap_law_witness :
    (applyFills wFills 0 0).2 * ((applyFills wFills 0 0).1 : ℚ) =
      (wFills.map (fun f => (f.qty : ℚ) * f.px)).sum :=
  (vwap_law wFills (by decide)).1

/-! ### Claim C6 — NewOrderSingle admission order and the duplicate reject -/

theorem nosValidate_duplicate (st : OrderStore) (m : NewOrderSingleMsg)
    (h1 : ¬m.symbol = "") (h2 : ¬(m.side ≠ '1' ∧ m.side ≠ '2'))
    (h3 : ¬m.orderQty ≤ 0) (h4 : ¬(m.price.isSome ∧ nosPx m ≤ 0))
    (h5 : ¬m.orderQty > MAX_ORDER_QTY)
    (h6 : ¬(m.price.isSome ∧ (m.orderQty : ℚ) * nosPx m > MAX_NOTIONAL))
    (h7 : st.existsCl m.clOrdId = true) :
    nosValidate st m = some ("Duplicate ClOrdID", ORD_REJ_DUPLICATE_ORDER) := by
  unfold nosValidate
  rw [if_neg h1, if_neg h2, if_neg h3, if_neg h4, if_neg h5, if_neg h6, if_pos h7]

/-- C6: the pre-trade checks run in exactly the spec §4.2 table order with
the first failure winning (`nosValidate` coincides with `firstFailure` over
the spec's check list), and a NewOrderSingle whose `clOrdId` is already
stored — passing every earlier check — is answered with an ExecutionReport
REJECTED carrying OrdRejReason 6 and Text "Duplicate ClOrdID", and the
record is stored in REJECTED state. -/
theorem nos_admission_order (cfg : SimCfg) (now : String) :
    (∀ (st : OrderStore) (m : NewOrderSingleMsg),
      nosValidate st m = firstFailure (nosChecks st m)) ∧
    (∀ (g : GwState) (m : NewOrderSingleMsg),
      ¬m.symbol = "" → ¬(m.side ≠ '1' ∧ m.side ≠ '2') → ¬m.orderQty ≤ 0 →
      ¬(m.price.isSome ∧ nosPx m ≤ 0) → ¬m.orderQty > MAX_ORDER_QTY →
      ¬(m.price.isSome ∧ (m.orderQty : ℚ) * nosPx m > MAX_NOTIONAL) →
      g.store.existsCl m.clOrdId = true →
      (fixNewOrder cfg g m now).1 =
        [{ orderId := "ORD" ++ toString g.ordCtr,
           execId := "EXEC" ++ toString g.execCtr, execType := '8',
           ordStatus := '8', side := m.side, leavesQty := 0, cumQty := 0,
           avgPx := 0, clOrdId := m.clOrdId, symbol := m.symbol,
           orderQty := m.orderQty,
           ordRejReason := some ORD_REJ_DUPLICATE_ORDER,
           text := some "Duplicate ClOrdID" }] ∧
      (fixNewOrder cfg g m now).2.store.get m.clOrdId =
        some { clOrdId := m.clOrdId, orderId := "ORD" ++ toString g.ordCtr,
               symbol := m.symbol, side := m.side, price := nosPx m,
               quantity := m.orderQty, leavesQty := 0, cumQty := 0,
               avgPx := 0, status := "REJECTED",
               rejectReason := "Duplicate ClOrdID", transactTime := now }) := by
  constructor
  · intro st m
    by_cases h1 : m.symbol = ""
    · simp [nosValidate, nosChecks, firstFailure, h1]
    by_cases h2 : m.side ≠ '1' ∧ m.side ≠ '2'
    · simp [nosValidate, nosChecks, firstFailure, h1, h2]
    by_cases h3 : m.orderQty ≤ 0
    · simp [nosValidate, nosChecks, firstFailure, h1, h2, h3]
    by_cases h4 : m.price.isSome ∧ nosPx m ≤ 0
    · simp [nosValidate, nosChecks, firstFailure, h1, h2, h3, h4]
    by_cases h5 : m.orderQty > MAX_ORDER_QTY
    · simp [nosValidate, nosChecks, firstFailure, h1, h2, h3, h4, h5]
    by_cases h6 : m.price.isSome ∧ (m.orderQty : ℚ) * nosPx m > MAX_NOTIONAL
    · simp [nosValidate, nosChecks, firstFailure, h1, h2, h3, h4, h5, h6]
    by_cases h7 : st.existsCl m.clOrdId
    · simp [nosValidate, nosChecks, firstFailure, h1, h2, h3, h4, h5, h6, h7]
    · simp [nosValidate, nosChecks, firstFailure, h1, h2, h3, h4, h5, h6, h7]
  · intro g m h1 h2 h3 h4 h5 h6 h7
    have hval := nosValidate_duplicate g.store m h1 h2 h3 h4 h5 h6 h7
    unfold fixNewOrder
    rw [hval]
    exact ⟨rfl, OrderStore.get_upsert_self g.store _⟩

/-- A store already holding clOrdId "A" (as a NEW limit order). -/
def dupStore : OrderStore :=
  { orders := [("A", { clOrdId := "A", orderId := "ORD1", symbol := "AAPL",
                       side := '1', price := 150, quantity := 100,
                       leavesQty := 100, status := "NEW" })],
    orderIndex := ["A"] }

def dupMsg : NewOrderSingleMsg :=
  { clOrdId := "A", symbol := "AAPL", side := '1', orderQty := 100,
    price := some 150 }

theorem nos_admission_order_witness :
    nosValidate dupStore dupMsg = firstFailure (nosChecks dupStore dupMsg) ∧
    (fixNewOrder cfg0 { store := dupStore } dupMsg "T1").1 =
      [{ orderId := "ORD1", execId := "EXEC1", execType := '8',
         ordStatus := '8', side := '1', leavesQty := 0, cumQty := 0,
         avgPx := 0, clOrdId := "A", symbol := "AAPL", orderQty := 100,
         ordRejReason := some ORD_REJ_DUPLICATE_ORDER,
         text := some "Duplicate ClOrdID" }] ∧
    (fixNewOrder cfg0 { store := dupStore } dupMsg "T1").2.store.get "A" =
      some { clOrdId := "A", orderId := "ORD1", symbol := "AAPL", side := '1',
             price := 150, quantity := 100, leavesQty := 0, cumQty := 0,
             avgPx := 0, status := "REJECTED",
             rejectReason := "Duplicate ClOrdID", transactTime := "T1" } :=
  ⟨(nos_admission_order cfg0 "T1").1 dupStore dupMsg,
   (nos_admission_order cfg0 "T1").2 { store := dupStore } dupMsg
     (by decide) (by decide) (by decide)
     (by norm_num [dupMsg, nosPx]) (by decide)
     (by norm_num [dupMsg, nosPx, MAX_NOTIONAL]) (by decide)⟩

/-! ### Claim C8 — FIX cancel semantics -/

/-- C8: an OrderCancelRequest is answered per the stored state of
`origClOrdId`: absent → OrderCancelReject UNKNOWN_ORDER with OrderID
"UNKNOWN" and no store change; FILLED → OrderCancelReject
TOO_LATE_TO_CANCEL, no change; CANCELED → OrderCancelReject
DUPLICATE_CLORDID, no change; otherwise an ExecutionReport with
ExecType = OrdStatus = CANCELED and the record updated to CANCELED with
leavesQty = cumQty = avgPx = 0. -/
theorem fix_cancel_semantics (g : GwState) (m : OrderCancelRequestMsg) :
    (g.store.get m.origClOrdId = none →
      fixCancel g m =
        (.rejected { orderId := "UNKNOWN", clOrdId := m.clOrdId,
                     origClOrdId := m.origClOrdId, ordStatus := '8',
                     cxlRejReason := CXL_REJ_UNKNOWN_ORDER }, g)) ∧
    (∀ r, g.store.get m.origClOrdId = some r → r.status = "FILLED" →
      fixCancel g m =
        (.rejected { orderId := if r.orderId = "" then "UNKNOWN" else r.orderId,
                     clOrdId := m.clOrdId, origClOrdId := m.origClOrdId,
                     ordStatus := '2',
                     cxlRejReason := CXL_REJ_TOO_LATE_TO_CANCEL }, g)) ∧
    (∀ r, g.store.get m.origClOrdId = some r → r.status ≠ "FILLED" →
      r.status = "CANCELED" →
      fixCancel g m =
        (.rejected { orderId := if r.orderId = "" then "UNKNOWN" else r.orderId,
                     clOrdId := m.clOrdId, origClOrdId := m.origClOrdId,
                     ordStatus := '4',
                     cxlRejReason := CXL_REJ_DUPLICATE_CLORDID }, g)) ∧
    (∀ r, g.store.get m.origClOrdId = some r → r.status ≠ "FILLED" →
      r.status ≠ "CANCELED" →
      (fixCancel g m).1 =
        .executed { orderId := m.origClOrdId,
                    execId := "EXEC" ++ toString g.execCtr, execType := '4',
                    ordStatus := '4', side := m.side, leavesQty := 0,
                    cumQty := 0, avgPx := 0, clOrdId := m.clOrdId,
                    symbol := m.symbol, origClOrdId := some m.origClOrdId } ∧
      (fixCancel g m).2.store.get m.origClOrdId =
        some { r with status := "CANCELED", leavesQty := 0, cumQty := 0,
                      avgPx := 0 }) := by
  refine ⟨?_, ?_, ?_, ?_⟩
  · intro hget
    unfold fixCancel
    rw [hget]
  · intro r hget hf
    unfold fixCancel
    rw [hget]
    dsimp only
    rw [if_pos hf]
  · intro r hget hf hc
    unfold fixCancel
    rw [hget]
    dsimp only
    rw [if_neg hf, if_pos hc]
  · intro r hget hf hc
    unfold fixCancel
    rw [hget]
    dsimp only
    rw [if_neg hf, if_neg hc]
    exact ⟨rfl, OrderStore.get_updateStatus_self g.store _ _ _ _ _ r hget⟩

def cxlMsg : OrderCancelRequestMsg :=
  { origClOrdId := "A", clOrdId := "B", symbol := "AAPL", side := '1' }

def gwWith (status : String) : GwState :=
  { store := { orders := [("A", { clOrdId := "A", orderId := "ORD1",
                                  symbol := "AAPL", side := '1', price := 150,
                                  quantity := 100, leavesQty := 100,
                                  status := status })],
               orderIndex := ["A"] } }

theorem fix_cancel_semantics_witness :
    fixCancel ({} : GwState) cxlMsg =
      (.rejected { orderId := "UNKNOWN", clOrdId := "B", origClOrdId := "A",
                   ordStatus := '8', cxlRejReason := CXL_REJ_UNKNOWN_ORDER },
       ({} : GwState)) ∧
    fixCancel (gwWith "FILLED") cxlMsg =
      (.rejected { orderId := "ORD1", clOrdId := "B", origClOrdId := "A",
                   ordStatus := '2',
                   cxlRejReason := CXL_REJ_TOO_LATE_TO_CANCEL },
       gwWith "FILLED") ∧
    fixCancel (gwWith "CANCELED") cxlMsg =
      (.rejected { orderId := "ORD1", clOrdId := "B", origClOrdId := "A",
                   ordStatus := '4',
                   cxlRejReason := CXL_REJ_DUPLICATE_CLORDID },
       gwWith "CANCELED") ∧
    (fixCancel (gwWith "NEW") cxlMsg).2.store.get "A" =
      some { clOrdId := "A", orderId := "ORD1", symbol := "AAPL", side := '1',
             price := 150, quantity := 100, leavesQty := 0, cumQty := 0,
             avgPx := 0, status := "CANCELED" } := by
  refine ⟨(fix_cancel_semantics {} cxlMsg).1 rfl, ?_, ?_, ?_⟩
  · have h := (fix_cancel_semantics (gwWith "FILLED") cxlMsg).2.1 _ rfl rfl
    simpa using h
  · have h := (fix_cancel_semantics (gwWith "CANCELED") cxlMsg).2.2.1 _ rfl
      (by decide) rfl
    simpa using h
  · have h := ((fix_cancel_semantics (gwWith "NEW") cxlMsg).2.2.2 _ rfl
      (by decide) (by decide)).2
    simpa using h

/-! ### Claim C9 — amend legality -/

theorem append_ne_empty (a b : String) (h : a ≠ "") : a ++ b ≠ "" := by
  intro he
  apply h
  have hd : (a ++ b).data = ([] : List Char) := congrArg String.data he
  have ha : (a ++ b).data = a.data ++ b.data := String.data_append a b
  rw [ha] at hd
  rcases List.append_eq_nil.mp hd with ⟨h1, _⟩
  cases a
  simp_all

/-- C9 (amended): a UI amend succeeds only from NEW or PARTIAL; a quantity
amendment must strictly reduce the quantity and stay strictly above
`cumQty` (reducing exactly to `cumQty` is refused); a price amendment is
risk-checked as `leavesQty · newPrice ≤ 1 000 000` (leaves, not quantity,
and only when the price actually changes); every failing amend returns
`(false, nonempty reason)` and leaves the whole gateway state unchanged. -/
theorem ui_amend_legality (g : GwState) (req : AmendRequest) (now : String) :
    ((uiAmend g req now).1 = false →
      (uiAmend g req now).2.2 = g ∧ (uiAmend g req now).2.1 ≠ "") ∧
    (∀ r0, g.store.get req.origClOrdId = some r0 →
      (r0.status = "NEW" ∨ r0.status = "PARTIAL" ∨ r0.status = "FILLED" ∨
       r0.status = "REJECTED" ∨ r0.status = "CANCELED") →
      (uiAmend g req now).1 = true →
      r0.status = "NEW" ∨ r0.status = "PARTIAL") ∧
    (∀ r0, g.store.get req.origClOrdId = some r0 →
      (uiAmend g req now).1 = true →
      req.newQuantity > 0 → req.newQuantity ≠ r0.quantity →
      r0.cumQty < req.newQuantity ∧ req.newQuantity < r0.quantity) ∧
    (∀ r0 r1 am1, g.store.get req.origClOrdId = some r0 →
      amendQty r0 req = .ok (r1, am1) →
      req.newPrice > 0 → |req.newPrice - r1.price| > 1/10000 →
      (uiAmend g req now).1 = true →
      (r1.leavesQty : ℚ) * req.newPrice ≤ MAX_NOTIONAL) := by
  refine ⟨?_, ?_, ?_, ?_⟩
  · intro hfalse
    unfold uiAmend at hfalse ⊢
    cases hget : g.store.get req.origClOrdId with
    | none =>
        exact ⟨rfl, append_ne_empty _ _ (by decide)⟩
    | some r0 =>
        rw [hget] at hfalse
        dsimp only at hfalse ⊢
        by_cases h1 : r0.status = "FILLED"
        · rw [if_pos h1]
          exact ⟨rfl, show ("Cannot amend filled order" : String) ≠ "" by decide⟩
        rw [if_neg h1] at hfalse ⊢
        by_cases h2 : r0.status = "CANCELED"
        · rw [if_pos h2]
          exact ⟨rfl, show ("Cannot amend canceled order" : String) ≠ "" by decide⟩
        rw [if_neg h2] at hfalse ⊢
        by_cases h3 : r0.status = "REJECTED"
        · rw [if_pos h3]
          exact ⟨rfl, show ("Cannot amend rejected order" : String) ≠ "" by decide⟩
        rw [if_neg h3] at hfalse ⊢
        cases hq : amendQty r0 req with
        | error e =>
            refine ⟨rfl, ?_⟩
            show e ≠ ""
            unfold amendQty at hq
            split at hq
            · split at hq
              · cases hq
                decide
              · split at hq
                · cases hq
                  decide
                · cases hq
            · cases hq
        | ok p1 =>
            obtain ⟨r1, am1⟩ := p1
            rw [hq] at hfalse
            dsimp only at hfalse ⊢
            cases hp : amendPrice r1 req am1 with
            | error e =>
                refine ⟨rfl, ?_⟩
                show e ≠ ""
                unfold amendPrice at hp
                split at hp
                · split at hp
                  · cases hp
                    decide
                  · cases hp
                · cases hp
            | ok p2 =>
                obtain ⟨r2, am2⟩ := p2
                rw [hp] at hfalse
                dsimp only at hfalse ⊢
                cases am2 with
                | false =>
                    rw [if_pos (show (false : Bool) = false from rfl)]
                    exact ⟨rfl, show ("No changes specified" : String) ≠ "" by decide⟩
                | true =>
                    rw [if_neg (show ¬(true = false) by decide)] at hfalse
                    exact absurd (show (true : Bool) = false from hfalse) (by decide)
  · intro r0 hget hstat htrue
    unfold uiAmend at htrue
    rw [hget] at htrue
    dsimp only at htrue
    by_cases h1 : r0.status = "FILLED"
    · rw [if_pos h1] at htrue
      cases htrue
    rw [if_neg h1] at htrue
    by_cases h2 : r0.status = "CANCELED"
    · rw [if_pos h2] at htrue
      cases htrue
    rw [if_neg h2] at htrue
    by_cases h3 : r0.status = "REJECTED"
    · rw [if_pos h3] at htrue
      cases htrue
    rcases hstat with h | h | h | h | h
    · exact Or.inl h
    · exact Or.inr h
    · exact absurd h h1
    · exact absurd h h3
    · exact absurd h h2
  · intro r0 hget htrue hgt hne
    unfold uiAmend at htrue
    rw [hget] at htrue
    dsimp only at htrue
    by_cases h1 : r0.status = "FILLED"
    · rw [if_pos h1] at htrue
      cases htrue
    rw [if_neg h1] at htrue
    by_cases h2 : r0.status = "CANCELED"
    · rw [if_pos h2] at htrue
      cases htrue
    rw [if_neg h2] at htrue
    by_cases h3 : r0.status = "REJECTED"
    · rw [if_pos h3] at htrue
      cases htrue
    rw [if_neg h3] at htrue
    unfold amendQty at htrue
    rw [if_pos ⟨hgt, hne⟩] at htrue
    by_cases hinc : req.newQuantity > r0.quantity
    · rw [if_pos hinc] at htrue
      cases htrue
    rw [if_neg hinc] at htrue
    by_cases hle : req.newQuantity ≤ r0.cumQty
    · rw [if_pos hle] at htrue
      cases htrue
    constructor
    · omega
    · omega
  · intro r0 r1 am1 hget hq hp0 hpd htrue
    unfold uiAmend at htrue
    rw [hget] at htrue
    dsimp only at htrue
    by_cases h1 : r0.status = "FILLED"
    · rw [if_pos h1] at htrue
      cases htrue
    rw [if_neg h1] at htrue
    by_cases h2 : r0.status = "CANCELED"
    · rw [if_pos h2] at htrue
      cases htrue
    rw [if_neg h2] at htrue
    by_cases h3 : r0.status = "REJECTED"
    · rw [if_pos h3] at htrue
      cases htrue
    rw [if_neg h3] at htrue
    rw [hq] at htrue
    dsimp only at htrue
    unfold amendPrice at htrue
    rw [if_pos ⟨hp0, hpd⟩] at htrue
    by_cases hnot : (r1.leavesQty : ℚ) * req.newPrice > MAX_NOTIONAL
    · rw [if_pos hnot] at htrue
      cases htrue
    exact le_of_not_lt hnot

/-- A PARTIAL order: 100 ordered, 50 filled at 10, 50 leaves. -/
def amendRecP : OrderRecord :=
  { clOrdId := "P", orderId := "UI_ORD1", symbol := "AAPL", side := '1',
    price := 10, quantity := 100, leavesQty := 50, cumQty := 50, avgPx := 10,
    status := "PARTIAL" }

def amendGw : GwState :=
  { store := { orders := [("P", amendRecP)], orderIndex := ["P"] } }

/-- An amend reducing the quantity exactly to `cumQty` — "a reduction to a
value ≥ cumQty" in the claim's words. -/
def amendReqEq : AmendRequest :=
  { origClOrdId := "P", clOrdId := "P2", newQuantity := 50, newPrice := 0 }

/-- C9 counterexample: the order is PARTIAL, the requested quantity equals
`cumQty` (hence ≥ cumQty, a pure reduction, notional untouched), yet the
amend is refused — the code demands `newQuantity > cumQty` strictly
(gateway_main.cpp line 360), so the claim's "any reduction to a value ≥
cumQty ... is legal" is false. -/
theorem amend_to_cumQty_refused :
    (amendGw.store.get "P").map (fun r => (r.status, r.cumQty)) =
      some ("PARTIAL", 50) ∧
    amendReqEq.newQuantity = 50 ∧
    uiAmend amendGw amendReqEq "T2" =
      (false, "New quantity must be greater than already filled quantity",
       amendGw) := by
  refine ⟨rfl, rfl, ?_⟩
  rfl

/-- A legal amend: reduce 100 → 80 on the same PARTIAL order. -/
def amendReqOk : AmendRequest :=
  { origClOrdId := "P", clOrdId := "P3", newQuantity := 80, newPrice := 0 }

theorem ui_amend_legality_witness :
    ((uiAmend amendGw amendReqEq "T2").2.2 = amendGw ∧
     (uiAmend amendGw amendReqEq "T2").2.1 ≠ "") ∧
    ((amendGw.store.get "P").map (fun r => r.status) = some "PARTIAL" →
      (50 : Int) < 80 ∧ (80 : Int) < 100) := by
  constructor
  · exact (ui_amend_legality amendGw amendReqEq "T2").1 rfl
  · intro _
    have h := ((ui_amend_legality amendGw amendReqOk "T2").2.2.1)
      amendRecP rfl rfl (by decide) (by decide)
    exact h

/-! ### Claim C1 — persistence round-trip -/

def sampleRecord : OrderRecord :=
  { clOrdId := "A", orderId := "ORD1", symbol := "AAPL", side := '1',
    price := 150, quantity := 100, leavesQty := 100, status := "NEW" }

def sampleStore : OrderStore := OrderStore.upsert {} sampleRecord

/-- C1 (code bug): `doSave` never persists anything.  `snapshotJson` returns
a top-level JSON array (as the repository's own `JsonSnapshot` test
asserts), but `doSave` evaluates `snapshot["orders"]` on it —
`nlohmann::json::operator[]` with a string key on an array throws
`type_error.305`, the `catch` block swallows the exception and returns
before the tmp-file write, so no file is ever produced; a subsequent `load`
into a fresh store therefore restores nothing, and the round-trip loses
every order. -/
theorem persistence_save_loses_orders :
    buildSaveDoc sampleStore 0 =
      .error "type_error.305 cannot use operator[] with a string argument" ∧
    doSave sampleStore 0 none = none ∧
    loadIntoStore (doSave sampleStore 0 none) = ({} : OrderStore) ∧
    sampleStore ≠ ({} : OrderStore) := by
  refine ⟨rfl, rfl, rfl, ?_⟩
  decide

/-! ### Claim C3 — the P99 latency statistic -/

def latKey (i : ℕ) : String := "L" ++ toString i

def latRecord (i : ℕ) : OrderRecord :=
  { clOrdId := latKey i, latencyUs := (i : Int) + 1 }

/-- A store holding exactly 100 orders with latencyUs = 1..100. -/
def latStore : OrderStore :=
  { orders := (List.range 100).map (fun i => (latKey i, latRecord i)),
    orderIndex := (List.range 100).map latKey }

/-- C3 counterexample: on the spec's own scenario (100 orders, latencies
1..100) `getStats` reports `p99LatencyUs = 100`, not 99 — the element at
zero-based index ⌊100·0.99⌋ = 99 of the ascending-sorted list [1..100] is
100. -/
theorem stats_p99_not_99 :
    latStore.getStats.p99LatencyUs ≠ 99 := by
  decide

/-- C3 (amended): `p99LatencyUs` is the element at the floor of the
99th-percentile index of the ascending-sorted positive latencies, clamped
to the last index (`p99Spec`), and on the 100-order 1..100 scenario its
value is 100 (not 99 as the spec's scenario asserts). -/
theorem stats_p99_floor_index :
    (∀ st : OrderStore, st.getStats.p99LatencyUs = p99Spec st) ∧
    latStore.getStats.p99LatencyUs = 100 := by
  constructor
  · intro st
    unfold OrderStore.getStats p99Spec
    dsimp only
    by_cases h : (sortAsc (((st.orders.map Prod.snd).filter
        (fun o => o.latencyUs > 0)).map (fun o => o.latencyUs))).isEmpty
    · rw [if_pos h, if_pos h]
    · rw [if_neg h, if_neg h]
      dsimp only
      set lat := sortAsc (((st.orders.map Prod.snd).filter
        (fun o => o.latencyUs > 0)).map (fun o => o.latencyUs)) with hlat
      have hn : 1 ≤ lat.length := by
        cases hl : lat with
        | nil =>
            rw [hl] at h
            simp at h
        | cons a l => simp [hl]
      have hidx : lat.length * 99 / 100 < lat.length := by
        have h99 : lat.length * 99 < 100 * lat.length := by omega
        exact Nat.div_lt_of_lt_mul h99
      rw [if_neg (by omega), min_eq_left (by omega)]
  · decide

/-! ### Claim C4 — order-book shape -/

theorem rround_mono {a b : ℚ} (h : a ≤ b) : rround a ≤ rround b := by
  unfold rround
  by_cases ha : 0 ≤ a
  · rw [if_pos ha, if_pos (le_trans ha h)]
    exact Int.floor_le_floor (by linarith)
  · rw [if_neg ha]
    by_cases hb : 0 ≤ b
    · rw [if_pos hb]
      have h1 : ⌈a - 1/2⌉ ≤ (0 : Int) := by
        rw [Int.ceil_le]
        push_cast
        linarith
      have h2 : (0 : Int) ≤ ⌊b + 1/2⌋ := by
        rw [Int.le_floor]
        push_cast
        linarith
      omega
    · rw [if_neg hb]
      exact Int.ceil_le_ceil (by linarith)

theorem roundCents_mono {a b : ℚ} (h : a ≤ b) : roundCents a ≤ roundCents b := by
  unfold roundCents
  have h1 : rround (a * 100) ≤ rround (b * 100) := rround_mono (by linarith)
  have h2 : ((rround (a * 100) : ℚ)) ≤ ((rround (b * 100) : ℚ)) := by
    exact_mod_cast h1
  linarith

theorem rround_lt_of_add_one_le {a b : ℚ} (ha : 0 ≤ a) (h : a + 1 ≤ b) :
    rround a < rround b := by
  unfold rround
  rw [if_pos ha, if_pos (by linarith)]
  have h1 : ⌊a + 1/2⌋ + 1 = ⌊a + 1/2 + 1⌋ := by
    rw [Int.floor_add_one]
  have h2 : ⌊a + 1/2 + 1⌋ ≤ ⌊b + 1/2⌋ := Int.floor_le_floor (by linarith)
  omega

theorem roundCents_lt {a b : ℚ} (ha : 0 ≤ a) (h : a + 1/100 ≤ b) :
    roundCents a < roundCents b := by
  unfold roundCents
  have h1 : rround (a * 100) < rround (b * 100) :=
    rround_lt_of_add_one_le (by linarith) (by linarith)
  have h2 : ((rround (a * 100) : ℚ)) < ((rround (b * 100) : ℚ)) := by
    exact_mod_cast h1
  linarith

/-- Every level produced by `mkLevels` has price `f j` for a level index
`j ≥ i`. -/
theorem mkLevels_price_mem (cfg : SimCfg) (f : ℕ → ℚ) :
    ∀ (n i : ℕ) (s : SimState) (l : BookLevel),
      l ∈ (mkLevels cfg f i n s).1 → ∃ j, i ≤ j ∧ l.price = f j := by
  intro n
  induction n with
  | zero =>
      intro i s l hl
      simp [mkLevels] at hl
  | succ k ih =>
      intro i s l hl
      rw [mkLevels] at hl
      rcases List.mem_cons.mp hl with h | h
      · exact ⟨i, le_refl i, by rw [h]⟩
      · obtain ⟨j, hj, hp⟩ := ih (i + 1) _ l h
        exact ⟨j, by omega, hp⟩

theorem mkLevels_pairwise_ge (cfg : SimCfg) (f : ℕ → ℚ)
    (hf : ∀ m n, m ≤ n → f n ≤ f m) :
    ∀ (n i : ℕ) (s : SimState),
      ((mkLevels cfg f i n s).1).Pairwise (fun a b => b.price ≤ a.price) := by
  intro n
  induction n with
  | zero =>
      intro i s
      rw [mkLevels]
      exact List.Pairwise.nil
  | succ k ih =>
      intro i s
      rw [mkLevels]
      refine List.Pairwise.cons ?_ (ih (i + 1) _)
      intro b hb
      obtain ⟨j, hj, hp⟩ := mkLevels_price_mem cfg f k (i + 1) _ b hb
      rw [hp]
      exact hf i j (by omega)

theorem mkLevels_pairwise_le (cfg : SimCfg) (f : ℕ → ℚ)
    (hf : ∀ m n, m ≤ n → f m ≤ f n) :
    ∀ (n i : ℕ) (s : SimState),
      ((mkLevels cfg f i n s).1).Pairwise (fun a b => a.price ≤ b.price) := by
  intro n
  induction n with
  | zero =>
      intro i s
      rw [mkLevels]
      exact List.Pairwise.nil
  | succ k ih =>
      intro i s
      rw [mkLevels]
      refine List.Pairwise.cons ?_ (ih (i + 1) _)
      intro b hb
      obtain ⟨j, hj, hp⟩ := mkLevels_price_mem cfg f k (i + 1) _ b hb
      rw [hp]
      exact hf i j (by omega)

theorem bidPriceAt_antitone (bidStart step : ℚ) (hstep : 0 ≤ step) :
    ∀ m n, m ≤ n → bidPriceAt bidStart step n ≤ bidPriceAt bidStart step m := by
  intro m n hmn
  unfold bidPriceAt
  apply roundCents_mono
  have hc : (m : ℚ) ≤ (n : ℚ) := by exact_mod_cast hmn
  nlinarith

theorem askPriceAt_monotone (askStart step : ℚ) (hstep : 0 ≤ step) :
    ∀ m n, m ≤ n → askPriceAt askStart step m ≤ askPriceAt askStart step n := by
  intro m n hmn
  unfold askPriceAt
  apply roundCents_mono
  have hc : (m : ℚ) ≤ (n : ℚ) := by exact_mod_cast hmn
  nlinarith

/-- C4 (amended): for every symbol and depth, `getOrderBook` returns bids
with non-increasing prices and asks with non-decreasing prices; the
half-spread is drawn as `mid · (0.001 + (ε+1)·0.002) / 2` with ε taken from
the normal(0,1) stream (NOT as `mid · U(0.001, 0.0025)`), and every bid
price is strictly below every ask price PROVIDED the drawn half-spread is
at least half a cent (0.005) and at most `mid`; for smaller or negative
draws — which a normal deviate produces — the strict ordering can fail. -/
theorem orderBook_shape (cfg : SimCfg) (s : SimState) (symbol : String)
    (depth : ℕ) (hstep : 0 ≤ cfg.step) :
    ((simGetOrderBook cfg s symbol depth).1.bids).Pairwise
        (fun a b => b.price ≤ a.price) ∧
    ((simGetOrderBook cfg s symbol depth).1.asks).Pairwise
        (fun a b => a.price ≤ b.price) ∧
    (1/200 ≤ bookMid cfg s symbol * bookSpreadPct (cfg.entropy s.rngIdx) / 2 →
     bookMid cfg s symbol * bookSpreadPct (cfg.entropy s.rngIdx) / 2 ≤
       bookMid cfg s symbol →
     ∀ bl ∈ (simGetOrderBook cfg s symbol depth).1.bids,
       ∀ al ∈ (simGetOrderBook cfg s symbol depth).1.asks,
         bl.price < al.price) := by
  unfold simGetOrderBook
  dsimp only
  set mid := bookMid cfg s symbol with hmid
  set eps := (simDraw cfg s).1 with heps
  set hsp := mid * bookSpreadPct eps / 2 with hhsp
  refine ⟨?_, ?_, ?_⟩
  · exact List.Pairwise.sublist (List.filter_sublist _)
      (mkLevels_pairwise_ge cfg _ (bidPriceAt_antitone (mid - hsp) cfg.step hstep)
        depth 0 _)
  · exact mkLevels_pairwise_le cfg _ (askPriceAt_monotone (mid + hsp) cfg.step hstep)
      depth 0 _
  · intro h1 h2 bl hbl al hal
    have heps2 : eps = cfg.entropy s.rngIdx := rfl
    rw [← heps2] at h1 h2
    have hbl2 := List.mem_of_mem_filter hbl
    obtain ⟨j, hj, hpj⟩ := mkLevels_price_mem cfg _ depth 0 _ bl hbl2
    obtain ⟨k, hk, hpk⟩ := mkLevels_price_mem cfg _ depth 0 _ al hal
    have hb0 : bl.price ≤ bidPriceAt (mid - hsp) cfg.step 0 := by
      rw [hpj]
      exact bidPriceAt_antitone (mid - hsp) cfg.step hstep 0 j (by omega)
    have ha0 : askPriceAt (mid + hsp) cfg.step 0 ≤ al.price := by
      rw [hpk]
      exact askPriceAt_monotone (mid + hsp) cfg.step hstep 0 k (by omega)
    have hlt : bidPriceAt (mid - hsp) cfg.step 0 < askPriceAt (mid + hsp) cfg.step 0 := by
      unfold bidPriceAt askPriceAt
      push_cast
      rw [show ((0:ℚ) * cfg.step * 2) = 0 by ring]
      rw [sub_zero, add_zero]
      exact roundCents_lt (by linarith) (by linarith)
    linarith

/-- A stream whose first draw is the normal deviate −1.5: the spread
fraction becomes 0.001 + (−0.5)·0.002 = 0, the half-spread collapses to 0
and the best bid equals the best ask. -/
def cfgCE : SimCfg := { entropy := fun k => if k = 0 then -(3/2 : ℚ) else 1 }

theorem mkLevels_zero (cfg : SimCfg) (f : ℕ → ℚ) (i : ℕ) (s : SimState) :
    mkLevels cfg f i 0 s = ([], s) := rfl

theorem mkLevels_succ (cfg : SimCfg) (f : ℕ → ℚ) (i n : ℕ) (s : SimState) :
    mkLevels cfg f i (n + 1) s =
      ({ price := f i, quantity := truncQ (cfg.entropy s.rngIdx) } ::
         (mkLevels cfg f (i + 1) n { s with rngIdx := s.rngIdx + 1 }).1,
       (mkLevels cfg f (i + 1) n { s with rngIdx := s.rngIdx + 1 }).2) := rfl

/-- C4 counterexample: with the normal draw −1.5 (an entirely ordinary
deviate), `getOrderBook` on a fresh symbol (mid 100) produces spread 0 and
best bid = best ask = 100 — `bids[0].price < asks[0].price` fails, and the
half-spread 0 is outside `mid·[0.001, 0.0025]`, refuting the claimed
`U(0.001, 0.0025)` draw. -/
theorem orderBook_crossed_at_zero_spread :
    ((simGetOrderBook cfgCE {} "XYZ" 1).1.bids.head?).map (fun l => l.price) =
      some 100 ∧
    ((simGetOrderBook cfgCE {} "XYZ" 1).1.asks.head?).map (fun l => l.price) =
      some 100 ∧
    (simGetOrderBook cfgCE {} "XYZ" 1).1.spread = 0 := by
  have hmid : bookMid cfgCE {} "XYZ" = 100 := by
    norm_num [bookMid, alistFind, cfgCE]
  have heps : (simDraw cfgCE ({} : SimState)).1 = -(3/2 : ℚ) := rfl
  have hsp : bookMid cfgCE {} "XYZ" *
      bookSpreadPct ((simDraw cfgCE ({} : SimState)).1) / 2 = 0 := by
    rw [hmid, heps]
    norm_num [bookSpreadPct]
  have hbid : bidPriceAt
      (bookMid cfgCE {} "XYZ" -
        bookMid cfgCE {} "XYZ" *
          bookSpreadPct ((simDraw cfgCE ({} : SimState)).1) / 2)
      cfgCE.step 0 = 100 := by
    rw [hsp, hmid]
    norm_num [bidPriceAt, roundCents, rround]
  have hask : askPriceAt
      (bookMid cfgCE {} "XYZ" +
        bookMid cfgCE {} "XYZ" *
          bookSpreadPct ((simDraw cfgCE ({} : SimState)).1) / 2)
      cfgCE.step 0 = 100 := by
    rw [hsp, hmid]
    norm_num [askPriceAt, roundCents, rround]
  unfold simGetOrderBook
  dsimp only
  rw [mkLevels_succ, mkLevels_succ, mkLevels_zero, mkLevels_zero]
  dsimp only
  rw [hbid, hask, hsp]
  norm_num

def wBookCfg : SimCfg := { entropy := fun _ => 1 }

theorem orderBook_shape_witness :
    ((simGetOrderBook wBookCfg {} "XYZ" 1).1.bids).Pairwise
        (fun a b => b.price ≤ a.price) ∧
    ((simGetOrderBook wBookCfg {} "XYZ" 1).1.asks).Pairwise
        (fun a b => a.price ≤ b.price) ∧
    (399/4 : ℚ) < 401/4 := by
  have h := orderBook_shape wBookCfg {} "XYZ" 1 (by norm_num [wBookCfg])
  have hmid : bookMid wBookCfg {} "XYZ" = 100 := by
    norm_num [bookMid, alistFind, wBookCfg]
  have heps : wBookCfg.entropy ({} : SimState).rngIdx = 1 := rfl
  have hsp : bookMid wBookCfg {} "XYZ" *
      bookSpreadPct (wBookCfg.entropy ({} : SimState).rngIdx) / 2 = 1/4 := by
    rw [hmid, heps]
    norm_num [bookSpreadPct]
  have hbid : bidPriceAt
      (bookMid wBookCfg {} "XYZ" -
        bookMid wBookCfg {} "XYZ" *
          bookSpreadPct ((simDraw wBookCfg ({} : SimState)).1) / 2)
      wBookCfg.step 0 = 399/4 := by
    rw [show (simDraw wBookCfg ({} : SimState)).1 = 1 from rfl, ← heps, hsp, hmid]
    norm_num [bidPriceAt, roundCents, rround, wBookCfg]
  have hask : askPriceAt
      (bookMid wBookCfg {} "XYZ" +
        bookMid wBookCfg {} "XYZ" *
          bookSpreadPct ((simDraw wBookCfg ({} : SimState)).1) / 2)
      wBookCfg.step 0 = 401/4 := by
    rw [show (simDraw wBookCfg ({} : SimState)).1 = 1 from rfl, ← heps, hsp, hmid]
    norm_num [askPriceAt, roundCents, rround, wBookCfg]
  have hb : (simGetOrderBook wBookCfg {} "XYZ" 1).1.bids =
      [{ price := 399/4,
         quantity := truncQ (wBookCfg.entropy 1) }] := by
    unfold simGetOrderBook
    dsimp only
    rw [mkLevels_succ, mkLevels_zero]
    dsimp only
    rw [hbid]
    norm_num [List.filter]
    rfl
  have ha : (simGetOrderBook wBookCfg {} "XYZ" 1).1.asks =
      [{ price := 401/4,
         quantity := truncQ (wBookCfg.entropy 2) }] := by
    unfold simGetOrderBook
    dsimp only
    rw [mkLevels_succ, mkLevels_zero, mkLevels_succ, mkLevels_zero]
    dsimp only
    rw [hask]
    rfl
  have h3 := h.2.2 (by rw [hsp]; norm_num) (by rw [hsp, hmid]; norm_num)
    { price := 399/4, quantity := truncQ (wBookCfg.entropy 1) }
    (by rw [hb]; exact List.mem_singleton.mpr rfl)
    { price := 401/4, quantity := truncQ (wBookCfg.entropy 2) }
    (by rw [ha]; exact List.mem_singleton.mpr rfl)
  exact ⟨h.1, h.2.1, h3⟩

end QfBlotter
